import Mathlib

/-!
Verification of the Hub Runtime of `mlx-openai-server-hub`
(`src/mlx_openai_server_hub/hub/runtime.py`), a supervisor that launches,
monitors and retires model-server subprocesses.

The embedding is shallow: each method of `HubRuntime` that the claims touch is
translated into a pure Lean function over an explicit process table.  Blocking
interactions with the outside world (subprocess spawn, health probes, `wait()`
return codes, wall-clock times) are passed in as oracle arguments, so every
function is executable on concrete inputs.  A process handle is modelled as a
`Proc` carrying the pid and the current `poll()` observation (`none` = alive).
Wall-clock times are naturals, exit codes are integers.  `lora_scales` are
floats in the Python source but are only ever compared for equality, so they
are modelled as naturals.
-/

set_option maxHeartbeats 1000000

namespace MlxHub

/-- Model status strings used by the runtime. -/
inductive Status
  | configured
  | stopped
  | starting
  | running
  | stopping
  | failed
deriving DecidableEq

/-- An OS process handle: pid plus the current `poll()` observation
(`none` means the child is alive, `some rc` means it has exited with `rc`). -/
structure Proc where
  pid : Nat
  poll : Option Int
deriving DecidableEq

/-- The fields of an `MLXServerConfig` entry of `hub.yaml` that the runtime
reads (all fields named in the spec's ModelSpec plus the ones compared by
`HubRuntime._config_matches`).  Names are guaranteed non-null after config
validation (`runtime.py` raises otherwise), so `name` is a plain `String`. -/
structure MLXServerConfig where
  name : String
  model_path : String
  model_type : String
  port : Nat
  host : String
  context_length : Option Nat
  max_concurrency : Nat
  queue_timeout : Nat
  queue_size : Nat
  log_level : String
  config_name : Option String
  quantize : Option Nat
  disable_auto_resize : Bool
  lora_paths : Option (List String)
  lora_scales : Option (List Nat)
  enable_auto_tool_choice : Bool
  tool_call_parser_name : Option String
  reasoning_parser_name : Option String
  message_converter : Option String
  trust_remote_code : Bool
  chat_template_file : Option String
  log_file : Option String
  no_log_file : Bool
  debug : Bool
  group : Option String
  jit_enabled : Bool
deriving DecidableEq

/-- `ModelProcessState` from `runtime.py`. -/
structure ModelProcessState where
  name : String
  config : MLXServerConfig
  port : Nat
  host : String
  jit_enabled : Bool
  group : Option String
  status : Status
  process : Option Proc
  return_code : Option Int
  last_error : Option String
  start_timestamp : Option Nat
  last_active : Option Nat
deriving DecidableEq

/-- `ModelProcessState.is_running`: the handle exists and `poll()` is `None`. -/
def ModelProcessState.is_running (s : ModelProcessState) : Bool :=
  match s.process with
  | some p => p.poll.isNone
  | none => false

/-- `GroupConfig`: name, optional `max_loaded`, optional idle trigger. -/
structure HubGroup where
  name : String
  max_loaded : Option Nat
  idle_unload_trigger_min : Option Nat
deriving DecidableEq

/-- The process table `HubRuntime._model_state`, in dict insertion order. -/
abbrev Table := List ModelProcessState

/-- Dict update of an existing key: every entry named `n` becomes `s`. -/
def replaceState (t : Table) (n : String) (s : ModelProcessState) : Table :=
  t.map (fun x => if x.name = n then s else x)

/-- Dict lookup by model name. -/
def findState (t : Table) (n : String) : Option ModelProcessState :=
  t.find? (fun x => x.name == n)

/-- `HubRuntime._group_lookup.get`: lookup of a group config by name. -/
def lookupGroup (lookup : List HubGroup) (g : String) : Option HubGroup :=
  lookup.find? (fun gr => gr.name == g)

/-- Python `a or b` on an optional string (`None` and `""` are falsy). -/
def pyOrStr (a : Option String) (b : String) : String :=
  match a with
  | some s => if s = "" then b else s
  | none => b

/-- Python `a or b` on an optional timestamp (`None` and `0` are falsy). -/
def pyOrNat (a : Option Nat) (b : Nat) : Nat :=
  match a with
  | some x => if x = 0 then b else x
  | none => b

/-- Python `"needle" in hay` substring test. -/
def containsSub (needle hay : String) : Bool :=
  (hay.splitOn needle).length != 1

/-- `HubRuntime._stop_process(state, kill=...)`.  `finalRc` is the oracle for
`process.returncode` once the (blocking) waits have finished; it is `none`
when the child survived both waits.  `now` is the wall clock at the final
update.  The transient `stopping` status is never observable because the
source holds no intermediate lock release inside this helper. -/
def stopProcess (s : ModelProcessState) (kill : Bool) (finalRc : Option Int) (now : Nat) :
    ModelProcessState :=
  match s.process with
  | none => { s with status := Status.stopped, return_code := none, last_active := some now }
  | some _ =>
    let s1 : ModelProcessState :=
      { s with
        status := Status.stopping
        return_code := finalRc
        process := none
        last_active := some now }
    match finalRc with
    | some rc =>
      if rc ≠ 0 then
        { s1 with
          status := Status.failed
          last_error := some (pyOrStr s1.last_error ("Process exited with code " ++ toString rc)) }
      else { s1 with status := Status.stopped }
    | none => { s1 with status := Status.stopped }

/-- Age key of `HubRuntime._pick_eviction_candidate`:
`state.start_timestamp or 0.0`. -/
def age (s : ModelProcessState) : Nat :=
  s.start_timestamp.getD 0

/-- Python `min(..., key=age)` keeps the first element attaining the minimum. -/
def minByAgeAux (b : ModelProcessState) : List ModelProcessState → ModelProcessState
  | [] => b
  | x :: xs => minByAgeAux (if age x < age b then x else b) xs

/-- Python `min(l, key=age)` for a possibly empty list. -/
def minByAge : List ModelProcessState → Option ModelProcessState
  | [] => none
  | x :: xs => some (minByAgeAux x xs)

/-- The `running` filter of `_pick_eviction_candidate`: same group, alive,
not the target itself, in table order. -/
def runningPeers (t : Table) (target : ModelProcessState) (g : String) : List ModelProcessState :=
  t.filter (fun s => s.group == some g && s.is_running && !(s.name == target.name))

/-- `HubRuntime._pick_eviction_candidate`. -/
def pickEvictionCandidate (lookup : List HubGroup) (t : Table) (target : ModelProcessState) :
    Option ModelProcessState :=
  match target.group with
  | none => none
  | some g =>
    match lookupGroup lookup g with
    | none => none
    | some grp =>
      match grp.max_loaded with
      | none => none
      | some k =>
        let peers := runningPeers t target g
        if peers.length < k then none else minByAge peers

/-- `HubRuntime._config_matches`: the twenty keys compared by the source, in
source order. -/
def configMatches (lhs rhs : MLXServerConfig) : Bool :=
  decide (lhs.model_path = rhs.model_path ∧
    lhs.model_type = rhs.model_type ∧
    lhs.port = rhs.port ∧
    lhs.host = rhs.host ∧
    lhs.context_length = rhs.context_length ∧
    lhs.max_concurrency = rhs.max_concurrency ∧
    lhs.queue_timeout = rhs.queue_timeout ∧
    lhs.queue_size = rhs.queue_size ∧
    lhs.config_name = rhs.config_name ∧
    lhs.quantize = rhs.quantize ∧
    lhs.disable_auto_resize = rhs.disable_auto_resize ∧
    lhs.lora_paths = rhs.lora_paths ∧
    lhs.lora_scales = rhs.lora_scales ∧
    lhs.enable_auto_tool_choice = rhs.enable_auto_tool_choice ∧
    lhs.tool_call_parser_name = rhs.tool_call_parser_name ∧
    lhs.reasoning_parser_name = rhs.reasoning_parser_name ∧
    lhs.message_converter = rhs.message_converter ∧
    lhs.trust_remote_code = rhs.trust_remote_code ∧
    lhs.chat_template_file = rhs.chat_template_file ∧
    lhs.jit_enabled = rhs.jit_enabled)

/-- `HubRuntime._wait_for_health`: the loop body observes, per pre-deadline
attempt, whether the child is alive and the HTTP response status (`none` for a
connection error).  Once the deadline passes the result is the child's
liveness at that moment. -/
def waitForHealth : List (Bool × Option Nat) → Bool → Bool
  | [], aliveAtDeadline => aliveAtDeadline
  | p :: rest, aliveAtDeadline =>
    if !p.1 then false
    else if p.2 == some 200 then true
    else waitForHealth rest aliveAtDeadline

/-- Oracles consumed by one `start_model` call: the spawn outcome, the health
probe observations, the exit codes observed when stopping the eviction victim
or the unhealthy child, and the wall-clock readings. -/
structure StartOracle where
  spawn : Except String Proc
  probes : List (Bool × Option Nat)
  aliveAtDeadline : Bool
  evictRc : Option Int
  killRc : Option Int
  tEarly : Nat
  tSpawn : Nat
  tHealthy : Nat
  tEvict : Nat
  tKill : Nat

/-- Target state after the `starting` transition (`runtime.py` lines 238-240). -/
def startingState (s : ModelProcessState) : ModelProcessState :=
  { s with status := Status.starting, last_error := none, return_code := none }

/-- Target state after the already-running early return (lines 226-236). -/
def earlyRunningState (s : ModelProcessState) (now : Nat) : ModelProcessState :=
  { s with status := Status.running, last_error := none, last_active := some now }

/-- Target state after installing the spawned handle (lines 271-275). -/
def installedState (s : ModelProcessState) (p : Proc) (now : Nat) : ModelProcessState :=
  { s with
    process := some p
    start_timestamp := some now
    last_active := some now
    return_code := none }

/-- Target state after a successful health wait (lines 280-283). -/
def healthyState (s : ModelProcessState) (now : Nat) : ModelProcessState :=
  { s with status := Status.running, last_error := none, last_active := some now }

/-- Target state right after a failed health wait (lines 292-293). -/
def healthFailedState (s : ModelProcessState) : ModelProcessState :=
  { s with status := Status.failed, last_error := some ("Health check failed for " ++ s.name) }

/-- Target state after a spawn `OSError` (lines 266-268). -/
def spawnFailedState (s : ModelProcessState) (msg : String) : ModelProcessState :=
  { s with status := Status.failed, last_error := some msg }

/-- The eviction step of `start_model` (line 252): stop the candidate, if any. -/
def evictPhase (t : Table) (cand : Option ModelProcessState) (rc : Option Int) (now : Nat) :
    Table :=
  match cand with
  | none => t
  | some ev => replaceState t ev.name (stopProcess ev false rc now)

/-- Result of a `start_model` call: the raised-or-ok outcome, the final table,
and the table snapshot at each point where the code leaves an atomic section
(each lock release, plus the completion of the lock-free eviction stop). -/
structure StartOutcome where
  res : Except String Unit
  table : Table
  obs : List Table

/-- `HubRuntime.start_model`, with blocking effects supplied by `o`. -/
def startModel (lookup : List HubGroup) (t : Table) (n : String) (o : StartOracle) :
    StartOutcome :=
  match findState t n with
  | none => { res := Except.error ("Unknown model " ++ n), table := t, obs := [] }
  | some st =>
    let cand := pickEvictionCandidate lookup t st
    if st.is_running then
      let t1 := replaceState t n (earlyRunningState st o.tEarly)
      { res := Except.ok (), table := t1, obs := [t1] }
    else
      let s1 := startingState st
      let t1 := replaceState t n s1
      let t2 := evictPhase t1 cand o.evictRc o.tEvict
      match o.spawn with
      | Except.error msg =>
        let t3 := replaceState t2 n (spawnFailedState s1 msg)
        { res := Except.error ("Failed to start model " ++ n)
          table := t3
          obs := [t1, t2, t3] }
      | Except.ok p =>
        let s2 := installedState s1 p o.tSpawn
        let t3 := replaceState t2 n s2
        if waitForHealth o.probes o.aliveAtDeadline then
          let t4 := replaceState t3 n (healthyState s2 o.tHealthy)
          { res := Except.ok (), table := t4, obs := [t1, t2, t3, t4] }
        else
          let s4 :=
            { stopProcess (healthFailedState s2) true o.killRc o.tKill with
              status := Status.failed }
          let t4 := replaceState t3 n s4
          { res := Except.error ("Model " ++ n ++ " failed health checks")
            table := t4
            obs := [t1, t2, t3, t4] }

/-- `HubRuntime.stop_model`: delegate to `_stop_process(state, kill=False)`
under the lock. -/
def stopModel (t : Table) (n : String) (rc : Option Int) (now : Nat) :
    Except String Unit × Table :=
  match findState t n with
  | none => (Except.error ("Unknown model " ++ n), t)
  | some st => (Except.ok (), replaceState t n (stopProcess st false rc now))

/-- One state's update in `HubRuntime._refresh_process_states` (the reap pass). -/
def refreshState (now : Nat) (s : ModelProcessState) : ModelProcessState :=
  match s.process with
  | none =>
    if s.status ≠ Status.configured ∧ s.status ≠ Status.stopped then
      { s with status := Status.stopped }
    else s
  | some p =>
    match p.poll with
    | none => s
    | some rc =>
      let s1 : ModelProcessState :=
        { s with
          return_code := some rc
          process := none
          last_active := some now }
      if rc ≠ 0 then
        { s1 with
          status := Status.failed
          last_error := some (pyOrStr s1.last_error ("Process exited with code " ++ toString rc)) }
      else
        { s1 with
          status := Status.stopped
          last_error :=
            match s1.last_error with
            | some e => if e ≠ "" ∧ containsSub "exited with code" e then none else some e
            | none => none }

/-- `HubRuntime._refresh_process_states` over the whole table. -/
def refreshProcessStates (t : Table) (now : Nat) : Table :=
  t.map (refreshState now)

/-- The (name, status, last_error) triples of `HubRuntime.status_payload`,
which runs the reap pass before projecting. -/
def statusProjection (t : Table) (now : Nat) : List (String × Status × Option String) :=
  (refreshProcessStates t now).map (fun s => (s.name, s.status, s.last_error))

/-- The idle test of `HubRuntime._enforce_idle_unload`:
`now - (last_active or start_timestamp or now) >= trigger_min * 60`. -/
def idleElapsedOk (grpMin : Nat) (s : ModelProcessState) (now : Nat) : Bool :=
  decide ((now : Int) - (pyOrNat s.last_active (pyOrNat s.start_timestamp now) : Int) ≥
    (grpMin * 60 : Int))

/-- One state's update in `HubRuntime._enforce_idle_unload`. -/
def idleStep (lookup : List HubGroup) (now : Nat) (rcOf : String → Option Int)
    (s : ModelProcessState) : ModelProcessState :=
  if !s.jit_enabled || !s.is_running then s
  else
    match s.group with
    | none => s
    | some g =>
      match lookupGroup lookup g with
      | none => s
      | some grp =>
        match grp.idle_unload_trigger_min with
        | none => s
        | some m =>
          if idleElapsedOk m s now then stopProcess s false (rcOf s.name) now else s

/-- `HubRuntime._enforce_idle_unload` over the whole table. -/
def enforceIdleUnload (lookup : List HubGroup) (t : Table) (now : Nat)
    (rcOf : String → Option Int) : Table :=
  t.map (idleStep lookup now rcOf)

/-- One monitor tick: reap, then idle-unload. -/
def monitorTick (lookup : List HubGroup) (t : Table) (now : Nat)
    (rcOf : String → Option Int) : Table :=
  enforceIdleUnload lookup (refreshProcessStates t now) now rcOf

/-- The part of `MLXHubConfig` the reload path consumes. -/
structure HubConfigData where
  models : List MLXServerConfig
  groups : List HubGroup
deriving DecidableEq

/-- A fresh `ModelProcessState` built from a config entry
(`runtime.py` lines 146-154). -/
def freshState (m : MLXServerConfig) : ModelProcessState :=
  { name := m.name
    config := m
    port := m.port
    host := m.host
    jit_enabled := m.jit_enabled
    group := m.group
    status := if m.jit_enabled then Status.configured else Status.stopped
    process := none
    return_code := none
    last_error := none
    start_timestamp := none
    last_active := none }

/-- Transfer of a live compatible entry into the fresh state (lines 161-165). -/
def transferState (m : MLXServerConfig) (x : ModelProcessState) : ModelProcessState :=
  { freshState m with
    process := x.process
    status := x.status
    last_error := x.last_error
    start_timestamp := x.start_timestamp
    last_active := x.last_active }

/-- The new table entry `reload_config` builds for one config entry. -/
def reconcileOne (old : Table) (m : MLXServerConfig) : ModelProcessState :=
  match findState old m.name with
  | some x =>
    if configMatches x.config m && x.process.isSome then transferState m x else freshState m
  | none => freshState m

/-- The table `reload_config` installs under the lock (`new_states`).  The
stops of removed or incompatible entries mutate objects that are then
discarded, so they do not show in the installed table. -/
def reconcile (old : Table) (cfg : HubConfigData) : Table :=
  cfg.models.map (reconcileOne old)

/-- The mutable fields of `HubRuntime` the reload path touches. -/
structure HubRuntimeState where
  hub_config : HubConfigData
  model_state : Table
  group_lookup : List HubGroup
  persisted_ports : List (String × Nat)

/-- `HubRuntime._persisted_ports_from_config`. -/
def portsFromConfig (cfg : HubConfigData) : List (String × Nat) :=
  cfg.models.map (fun m => (m.name, m.port))

/-- `HubRuntime.start_initial_models`: iterate a snapshot of the table, start
every non-JIT model, swallowing start errors. -/
def startInitialModels (lookup : List HubGroup) (t : Table) (oracles : String → StartOracle) :
    Table :=
  (t.map (fun s => (s.name, s.jit_enabled))).foldl
    (fun acc nj => if nj.2 then acc else (startModel lookup acc nj.1 (oracles nj.1)).table) t

/-- `HubRuntime.reload_config`: refresh `persisted_ports`, reload the config
(`loadResult` is the oracle for `load_hub_config`), reconcile the table and
group lookup under the lock, then boot non-JIT models. -/
def reloadConfig (rt : HubRuntimeState) (loadResult : Except String HubConfigData)
    (oracles : String → StartOracle) : Except String Unit × HubRuntimeState :=
  let rt1 := { rt with persisted_ports := portsFromConfig rt.hub_config }
  match loadResult with
  | Except.error e => (Except.error e, rt1)
  | Except.ok cfg =>
    let t := reconcile rt.model_state cfg
    let rt2 := { rt1 with model_state := t, hub_config := cfg, group_lookup := cfg.groups }
    let t2 := startInitialModels rt2.group_lookup rt2.model_state oracles
    (Except.ok (), { rt2 with model_state := t2 })

/-- `status ∈ {starting, running, stopping}`. -/
def inFlight : Status → Bool
  | Status.starting => true
  | Status.running => true
  | Status.stopping => true
  | _ => false

/-- `status ∈ {configured, stopped, failed}`. -/
def atRest : Status → Bool
  | Status.configured => true
  | Status.stopped => true
  | Status.failed => true
  | _ => false

/-- Direction 1 of the spec invariant: a present handle forces an in-flight
status. -/
def handleStatusOk (s : ModelProcessState) : Bool :=
  !s.process.isSome || inFlight s.status

/-- The full spec biconditional: the handle is absent iff the status is one of
`{configured, stopped, failed}`. -/
def handleStatusIff (s : ModelProcessState) : Bool :=
  s.process.isNone == atRest s.status

/-- Direction 1 of the invariant over a table. -/
def inv1B (t : Table) : Bool := t.all handleStatusOk

/-- The biconditional invariant over a table. -/
def bicondB (t : Table) : Bool := t.all handleStatusIff

/-- Every present handle in the table is alive (no stale unreaped handle). -/
def allLiveB (t : Table) : Bool :=
  t.all (fun s => s.process.isNone || s.is_running)

/-- A state of group `g` whose handle is present and alive. -/
def liveInGroup (g : String) (s : ModelProcessState) : Bool :=
  s.group == some g && s.is_running

/-- Number of states of group `g` with a live (alive) handle. -/
def liveCountG (g : String) (t : Table) : Nat :=
  t.countP (liveInGroup g)

/-- Number of states of group `g` with a present handle, dead or alive — the
count named by spec invariant 3. -/
def handleCountG (g : String) (t : Table) : Nat :=
  t.countP (fun s => s.group == some g && s.process.isSome)

/-- The table's names, in order. -/
def tableNames (t : Table) : List String :=
  t.map (fun s => s.name)

/-- No two table entries share a name (a dict key invariant). -/
def namesNodup (t : Table) : Prop :=
  (tableNames t).Nodup

/-! ### Concrete sample data for counterexamples and witnesses -/

/-- A representative `hub.yaml` model entry (mirrors the test fixture). -/
def sampleConfig : MLXServerConfig :=
  { name := "alpha"
    model_path := "/models/a"
    model_type := "lm"
    port := 19081
    host := "127.0.0.1"
    context_length := none
    max_concurrency := 1
    queue_timeout := 300
    queue_size := 100
    log_level := "INFO"
    config_name := none
    quantize := none
    disable_auto_resize := false
    lora_paths := none
    lora_scales := none
    enable_auto_tool_choice := false
    tool_call_parser_name := none
    reasoning_parser_name := none
    message_converter := none
    trust_remote_code := false
    chat_template_file := none
    log_file := none
    no_log_file := false
    debug := false
    group := none
    jit_enabled := false }

/-- Build a model state the way `HubRuntime.__post_init__` does, then place it
in a given lifecycle situation. -/
def mkState (nm : String) (g : Option String) (st : Status) (pr : Option Proc)
    (ts : Option Nat) : ModelProcessState :=
  { name := nm
    config := { sampleConfig with name := nm, group := g }
    port := 19081
    host := "127.0.0.1"
    jit_enabled := false
    group := g
    status := st
    process := pr
    return_code := none
    last_error := none
    start_timestamp := ts
    last_active := ts }

/-- An oracle for runs that are not supposed to reach the given phase, or
where the phase outcome is irrelevant. -/
def defaultOracle : StartOracle :=
  { spawn := Except.error "unused"
    probes := []
    aliveAtDeadline := false
    evictRc := some 0
    killRc := some 0
    tEarly := 100
    tSpawn := 101
    tHealthy := 102
    tEvict := 103
    tKill := 104 }

/-- The table used by the C9 counterexample: one running model. -/
def c9Table : Table :=
  [mkState "alpha" none Status.running (some { pid := 7, poll := none }) (some 3)]

/-- A running member of group `g`, first in table order (C3 data). -/
def c3Zeta : ModelProcessState :=
  mkState "zeta" (some "g") Status.running (some { pid := 21, poll := none }) (some 10)

/-- A running member of group `g` with the same `start_timestamp`,
alphabetically first but second in table order (C3 data). -/
def c3Alpha : ModelProcessState :=
  mkState "alpha" (some "g") Status.running (some { pid := 22, poll := none }) (some 10)

/-- The stopped target of the C3 eviction decision. -/
def c3Beta : ModelProcessState := mkState "beta" (some "g") Status.stopped none none

/-- The C3 table, in dict insertion order. -/
def c3Table : Table := [c3Zeta, c3Alpha, c3Beta]

/-- The C3 group lookup: `g` with `max_loaded = 1`. -/
def c3Lookup : List HubGroup :=
  [{ name := "g", max_loaded := some 1, idle_unload_trigger_min := none }]

/-- The C2 table: a single stopped model, satisfying the biconditional. -/
def c2Table : Table := [mkState "alpha" none Status.stopped none none]

/-- The C2 oracle: successful spawn, immediately healthy. -/
def c2Oracle : StartOracle :=
  { defaultOracle with
    spawn := Except.ok { pid := 9, poll := none }
    probes := [(true, some 200)]
    aliveAtDeadline := true }

/-- C1 lookup: group `g` with `max_loaded = 1`. -/
def c1Lookup : List HubGroup :=
  [{ name := "g", max_loaded := some 1, idle_unload_trigger_min := none }]

/-- `alpha`: status `running`, handle present but the child has already
exited (return code 0 observable by `poll`, not yet reaped). -/
def c1DeadAlpha : ModelProcessState :=
  mkState "alpha" (some "g") Status.running (some { pid := 31, poll := some 0 }) (some 4)

/-- `beta`: stopped member of group `g`, about to be started. -/
def c1Beta : ModelProcessState := mkState "beta" (some "g") Status.stopped none none

/-- The C1 counterexample table. -/
def c1Table : Table := [c1DeadAlpha, c1Beta]

/-- Successful spawn and first-probe 200 for `beta`. -/
def c1Oracle : StartOracle :=
  { defaultOracle with
    spawn := Except.ok { pid := 32, poll := none }
    probes := [(true, some 200)]
    aliveAtDeadline := true }

/-- `alpha` with a live child, for the C1 witness. -/
def c1LiveAlpha : ModelProcessState :=
  mkState "alpha" (some "g") Status.running (some { pid := 33, poll := none }) (some 4)

/-- The C1 witness table: group `g` at live capacity 1. -/
def c1TableLive : Table := [c1LiveAlpha, c1Beta]

/-- The `alpha` config of the C6 scenario (non-JIT member of group `g`). -/
def r6AlphaCfg : MLXServerConfig := { sampleConfig with name := "alpha", group := some "g" }

/-- The `beta` config of the C6 scenario (non-JIT member of group `g`). -/
def r6BetaCfg : MLXServerConfig :=
  { sampleConfig with name := "beta", group := some "g", port := 19082 }

/-- `alpha` running with a live handle launched at t = 10. -/
def r6Alpha : ModelProcessState :=
  { freshState r6AlphaCfg with
    status := Status.running
    process := some { pid := 41, poll := none }
    start_timestamp := some 10
    last_active := some 10 }

/-- `beta` stopped. -/
def r6Beta : ModelProcessState := freshState r6BetaCfg

/-- The C6 table before the reload. -/
def r6Old : Table := [r6Alpha, r6Beta]

/-- The C6 configuration — identical to the one the table was built from;
group `g` has `max_loaded = 1`. -/
def r6Cfg : HubConfigData :=
  { models := [r6AlphaCfg, r6BetaCfg]
    groups := [{ name := "g", max_loaded := some 1, idle_unload_trigger_min := none }] }

/-- The C6 runtime state. -/
def r6Rt : HubRuntimeState :=
  { hub_config := r6Cfg
    model_state := r6Old
    group_lookup := r6Cfg.groups
    persisted_ports := [] }

/-- Spawn oracles for the C6 reload: `beta` spawns and turns healthy. -/
def r6Oracles : String → StartOracle := fun nm =>
  if nm = "beta" then
    { defaultOracle with
      spawn := Except.ok { pid := 42, poll := none }
      probes := [(true, some 200)]
      aliveAtDeadline := true }
  else defaultOracle

/-! ### Helper lemmas about the table primitives -/

theorem findState_some_pred {t : Table} {n : String} {s : ModelProcessState}
    (h : findState t n = some s) : s.name = n := by
  have := List.find?_some h
  simpa using this

theorem findState_mem {t : Table} {n : String} {s : ModelProcessState}
    (h : findState t n = some s) : s ∈ t :=
  List.mem_of_find?_eq_some h

theorem replaceState_of_not_mem {t : Table} {n : String} (s' : ModelProcessState)
    (h : n ∉ tableNames t) : replaceState t n s' = t := by
  induction t with
  | nil => rfl
  | cons x xs ih =>
    simp only [tableNames, List.map_cons, List.mem_cons, not_or] at h
    simp only [replaceState, List.map_cons]
    rw [if_neg (fun hx => h.1 hx.symm)]
    have := ih (by simpa [tableNames] using h.2)
    simpa [replaceState] using congrArg (List.cons x) this

theorem findState_replaceState_self {t : Table} {n : String} {z : ModelProcessState}
    (s' : ModelProcessState) (h : findState t n = some z) (hn : s'.name = n) :
    findState (replaceState t n s') n = some s' := by
  induction t with
  | nil => simp [findState] at h
  | cons x xs ih =>
    by_cases hx : x.name = n
    · simp [findState, replaceState, hx, hn]
    · have hxb : (x.name == n) = false := by simpa using hx
      simp only [findState, List.find?_cons, hxb] at h
      have hih := ih h
      simp only [replaceState, List.map_cons, if_neg hx]
      simp only [findState, List.find?_cons, hxb]
      simpa only [findState, replaceState] using hih

theorem findState_replaceState_other {t : Table} {m n : String} (s' : ModelProcessState)
    (hm : s'.name = m) (hne : m ≠ n) :
    findState (replaceState t m s') n = findState t n := by
  induction t with
  | nil => rfl
  | cons x xs ih =>
    by_cases hx : x.name = m
    · have hsb : (s'.name == n) = false := by simp [hm, hne]
      have hxb : (x.name == n) = false := by simp [hx, hne]
      simp only [replaceState, List.map_cons, if_pos hx]
      simp only [findState, List.find?_cons, hsb, hxb]
      simpa only [findState, replaceState] using ih
    · simp only [replaceState, List.map_cons, if_neg hx]
      by_cases hxn : x.name = n
      · have hxb : (x.name == n) = true := by simpa using hxn
        simp only [findState, List.find?_cons, hxb]
      · have hxb : (x.name == n) = false := by simpa using hxn
        simp only [findState, List.find?_cons, hxb]
        simpa only [findState, replaceState] using ih

theorem mem_replaceState {t : Table} {n : String} {s' y : ModelProcessState}
    (hy : y ∈ replaceState t n s') : y = s' ∨ (y ∈ t ∧ y.name ≠ n) := by
  simp only [replaceState, List.mem_map] at hy
  obtain ⟨x, hx, hxy⟩ := hy
  by_cases hxn : x.name = n
  · rw [if_pos hxn] at hxy
    exact Or.inl hxy.symm
  · rw [if_neg hxn] at hxy
    exact Or.inr ⟨hxy ▸ hx, hxy ▸ hxn⟩

theorem all_replaceState {p : ModelProcessState → Bool} {t : Table} {n : String}
    {s' : ModelProcessState} (hs : p s' = true) (ht : t.all p = true) :
    (replaceState t n s').all p = true := by
  rw [List.all_eq_true] at ht ⊢
  intro y hy
  rcases mem_replaceState hy with h | h
  · exact h ▸ hs
  · exact ht y h.1

theorem all_map_of {α : Type} {p : α → Bool} {f : α → α} {t : List α}
    (h : ∀ x ∈ t, p x = true → p (f x) = true) (ht : t.all p = true) :
    (t.map f).all p = true := by
  rw [List.all_eq_true] at ht ⊢
  intro y hy
  rw [List.mem_map] at hy
  obtain ⟨x, hx, hxy⟩ := hy
  exact hxy ▸ h x hx (ht x hx)

theorem findState_of_mem_nodup {t : Table} {s : ModelProcessState}
    (hnd : namesNodup t) (hs : s ∈ t) : findState t s.name = some s := by
  induction t with
  | nil => simp at hs
  | cons x xs ih =>
    rcases List.mem_cons.mp hs with h | h
    · subst h
      simp [findState]
    · have hnd' : (x.name :: xs.map (fun z => z.name)).Nodup := by
        simpa [namesNodup, tableNames] using hnd
      have hx : x.name ≠ s.name := by
        intro hEq
        refine (List.nodup_cons.mp hnd').1 ?_
        rw [hEq]
        exact List.mem_map_of_mem (fun z => z.name) h
      have hxb : (x.name == s.name) = false := by simpa using hx
      simp only [findState, List.find?_cons, hxb]
      have hih := ih (by simpa [namesNodup, tableNames] using (List.nodup_cons.mp hnd').2) h
      simpa only [findState] using hih

/-! ### C4 — process-compatibility predicate -/

/-- C4 (counterexample): the claim says two specs differing in any listed
field — `log_level` among them — are not process-compatible.  The code's
`_config_matches` does not compare `log_level` (nor `name`, `log_file`,
`no_log_file`, `debug`, `group`), so two specs that differ only in
`log_level` are judged compatible. -/
theorem configMatches_counterexample :
    configMatches sampleConfig { sampleConfig with log_level := "DEBUG" } = true ∧
    sampleConfig.log_level ≠
      ({ sampleConfig with log_level := "DEBUG" } : MLXServerConfig).log_level := by
  constructor
  · decide
  · decide

/-- C4 (amended): `_config_matches` returns true iff exactly the twenty
compared fields are equal: `model_path`, `model_type`, `port`, `host`,
`context_length`, `max_concurrency`, `queue_timeout`, `queue_size`,
`config_name`, `quantize`, `disable_auto_resize`, `lora_paths`,
`lora_scales`, `enable_auto_tool_choice`, `tool_call_parser_name`,
`reasoning_parser_name`, `message_converter`, `trust_remote_code`,
`chat_template_file` and `jit_enabled`.  The fields `name`, `log_level`,
`log_file`, `no_log_file`, `debug` and `group` are not compared. -/
theorem configMatches_iff (l r : MLXServerConfig) :
    configMatches l r = true ↔
      (l.model_path = r.model_path ∧
        l.model_type = r.model_type ∧
        l.port = r.port ∧
        l.host = r.host ∧
        l.context_length = r.context_length ∧
        l.max_concurrency = r.max_concurrency ∧
        l.queue_timeout = r.queue_timeout ∧
        l.queue_size = r.queue_size ∧
        l.config_name = r.config_name ∧
        l.quantize = r.quantize ∧
        l.disable_auto_resize = r.disable_auto_resize ∧
        l.lora_paths = r.lora_paths ∧
        l.lora_scales = r.lora_scales ∧
        l.enable_auto_tool_choice = r.enable_auto_tool_choice ∧
        l.tool_call_parser_name = r.tool_call_parser_name ∧
        l.reasoning_parser_name = r.reasoning_parser_name ∧
        l.message_converter = r.message_converter ∧
        l.trust_remote_code = r.trust_remote_code ∧
        l.chat_template_file = r.chat_template_file ∧
        l.jit_enabled = r.jit_enabled) := by
  simp [configMatches]

/-- Reflexivity of process compatibility. -/
theorem configMatches_refl (c : MLXServerConfig) : configMatches c c = true := by
  simp [configMatches]

/-! ### C5 — reload failure atomicity -/

/-- C5: when `load_hub_config` fails, `reload_config` raises (the
`HubConfigError` is re-raised as `HubRuntimeError`, surfaced as
`ReloadFailed`) and the process table, the hub config and the group lookup
are exactly what they were before the call. -/
theorem reload_failure_atomic (rt : HubRuntimeState) (e : String)
    (oracles : String → StartOracle) :
    (reloadConfig rt (Except.error e) oracles).1 = Except.error e ∧
    (reloadConfig rt (Except.error e) oracles).2.model_state = rt.model_state ∧
    (reloadConfig rt (Except.error e) oracles).2.hub_config = rt.hub_config ∧
    (reloadConfig rt (Except.error e) oracles).2.group_lookup = rt.group_lookup :=
  ⟨rfl, rfl, rfl, rfl⟩

/-! ### Facts about `stopProcess` -/

theorem stopProcess_process (s : ModelProcessState) (kill : Bool) (rc : Option Int) (now : Nat) :
    (stopProcess s kill rc now).process = none := by
  unfold stopProcess
  cases s.process with
  | none => rfl
  | some p =>
    cases rc with
    | none => rfl
    | some c =>
      by_cases hc : c ≠ 0
      · simp [hc]
      · simp [hc]

theorem stopProcess_name (s : ModelProcessState) (kill : Bool) (rc : Option Int) (now : Nat) :
    (stopProcess s kill rc now).name = s.name := by
  unfold stopProcess
  cases s.process with
  | none => rfl
  | some p =>
    cases rc with
    | none => rfl
    | some c =>
      by_cases hc : c ≠ 0
      · simp [hc]
      · simp [hc]

theorem stopProcess_noHandle (s : ModelProcessState) (kill : Bool) (rc : Option Int) (now : Nat)
    (h : s.process = none) :
    stopProcess s kill rc now =
      { s with status := Status.stopped, return_code := none, last_active := some now } := by
  unfold stopProcess
  rw [h]

theorem stopProcess_status (s : ModelProcessState) (kill : Bool) (rc : Option Int) (now : Nat) :
    (stopProcess s kill rc now).status = Status.stopped ∨
      (stopProcess s kill rc now).status = Status.failed := by
  unfold stopProcess
  cases s.process with
  | none => exact Or.inl rfl
  | some p =>
    cases rc with
    | none => exact Or.inl rfl
    | some c =>
      by_cases hc : c ≠ 0
      · simp [hc]
      · simp [hc]

theorem stopProcess_last_error_of_set (s : ModelProcessState) (kill : Bool) (rc : Option Int)
    (now : Nat) (e : String) (he : s.last_error = some e) (hne : e ≠ "") :
    (stopProcess s kill rc now).last_error = some e := by
  unfold stopProcess
  cases s.process with
  | none => simpa using he
  | some p =>
    cases rc with
    | none => simpa using he
    | some c =>
      by_cases hc : c ≠ 0
      · simp [hc, pyOrStr, he, hne]
      · simp [hc, he]

/-! ### C8 — `_stop_process` exit-code postcondition -/

/-- C8 (counterexample): the claim says that on a clean exit `_stop_process`
"clears any stale `exited with code` message from `last_error`".  It does
not: the clearing exists only in `_refresh_process_states`.  Stopping a state
whose `last_error` is a stale exit message with observed return code 0 leaves
the message in place. -/
theorem stopProcess_counterexample :
    (stopProcess
        { mkState "alpha" none Status.running (some { pid := 41, poll := none }) (some 5) with
          last_error := some "Process exited with code 1" }
        false (some 0) 9).status = Status.stopped ∧
    (stopProcess
        { mkState "alpha" none Status.running (some { pid := 41, poll := none }) (some 5) with
          last_error := some "Process exited with code 1" }
        false (some 0) 9).last_error = some "Process exited with code 1" := by
  constructor
  · decide
  · decide

/-- C8 (amended): for a state with a handle, after the wait `_stop_process`
records the observed `return_code`, nulls the handle and bumps `last_active`;
if the return code is neither `none` nor `0` it sets `failed` with the
synthesized "Process exited with code N" message unless `last_error` was
already set (Python truthiness: a present non-empty string wins); otherwise
it sets `stopped` and leaves `last_error` exactly as it was — no stale
message is cleared. -/
theorem stopProcess_with_handle (s : ModelProcessState) (kill : Bool) (rc : Option Int)
    (now : Nat) (p : Proc) (hp : s.process = some p) :
    (stopProcess s kill rc now).return_code = rc ∧
    (stopProcess s kill rc now).process = none ∧
    (stopProcess s kill rc now).last_active = some now ∧
    (∀ c : Int, rc = some c → c ≠ 0 →
      (stopProcess s kill rc now).status = Status.failed ∧
      (stopProcess s kill rc now).last_error =
        some (pyOrStr s.last_error ("Process exited with code " ++ toString c))) ∧
    ((rc = none ∨ rc = some 0) →
      (stopProcess s kill rc now).status = Status.stopped ∧
      (stopProcess s kill rc now).last_error = s.last_error) := by
  cases rc with
  | none =>
    simp [stopProcess, hp]
  | some c =>
    by_cases hc0 : c = 0
    · subst hc0
      simp [stopProcess, hp]
    · simp [stopProcess, hp, hc0]

/-- C8 witness: a live handle exiting with code 3 while `last_error` is
unset yields `failed` with the synthesized message. -/
theorem stopProcess_with_handle_witness :
    (stopProcess (mkState "alpha" none Status.running (some { pid := 7, poll := none }) (some 5))
        false (some 3) 9).return_code = some 3 ∧
    (stopProcess (mkState "alpha" none Status.running (some { pid := 7, poll := none }) (some 5))
        false (some 3) 9).process = none ∧
    (stopProcess (mkState "alpha" none Status.running (some { pid := 7, poll := none }) (some 5))
        false (some 3) 9).last_active = some 9 ∧
    (stopProcess (mkState "alpha" none Status.running (some { pid := 7, poll := none }) (some 5))
        false (some 3) 9).status = Status.failed ∧
    (stopProcess (mkState "alpha" none Status.running (some { pid := 7, poll := none }) (some 5))
        false (some 3) 9).last_error = some "Process exited with code 3" := by
  have h := stopProcess_with_handle
    (mkState "alpha" none Status.running (some { pid := 7, poll := none }) (some 5))
    false (some 3) 9 { pid := 7, poll := none } (by decide)
  refine ⟨h.1, h.2.1, h.2.2.1, ?_, ?_⟩
  · exact (h.2.2.2.1 3 rfl (by decide)).1
  · have := (h.2.2.2.1 3 rfl (by decide)).2
    simpa [mkState, pyOrStr] using this

/-! ### C10 — the reap pass coerces handle-less states to `stopped` -/

/-- C10: every run of `_refresh_process_states` (executed by each monitor
tick and at the start of `status_payload`) rewrites a state with no process
handle whose status is neither `configured` nor `stopped` to status
`stopped`, leaving every other field — `last_error` included — untouched; so
a model left `failed` with no handle is reported as `stopped` with its
`last_error` preserved by the next status projection. -/
theorem refresh_coerces_handleless (t : Table) (now : Nat) (s : ModelProcessState)
    (hs : s ∈ t) (hp : s.process = none)
    (hc : s.status ≠ Status.configured) (hst : s.status ≠ Status.stopped) :
    refreshState now s = { s with status := Status.stopped } ∧
    ({ s with status := Status.stopped } : ModelProcessState) ∈ refreshProcessStates t now ∧
    (s.name, Status.stopped, s.last_error) ∈ statusProjection t now := by
  have h1 : refreshState now s = { s with status := Status.stopped } := by
    simp [refreshState, hp, hc, hst]
  refine ⟨h1, ?_, ?_⟩
  · rw [refreshProcessStates]
    exact h1 ▸ List.mem_map_of_mem (refreshState now) hs
  · have hm : refreshState now s ∈ refreshProcessStates t now :=
      List.mem_map_of_mem (refreshState now) hs
    have hmm := List.mem_map_of_mem (fun z : ModelProcessState => (z.name, z.status, z.last_error)) hm
    rw [h1] at hmm
    simpa [statusProjection] using hmm

/-- C10 witness: a `failed` model with no handle and `last_error = "boom"`
is projected as `stopped` with the error preserved. -/
theorem refresh_coerces_handleless_witness :
    refreshState 7 { mkState "alpha" none Status.failed none (some 2) with
        last_error := some "boom" } =
      { { mkState "alpha" none Status.failed none (some 2) with last_error := some "boom" } with
        status := Status.stopped } ∧
    ({ { mkState "alpha" none Status.failed none (some 2) with last_error := some "boom" } with
        status := Status.stopped } : ModelProcessState) ∈
      refreshProcessStates
        [{ mkState "alpha" none Status.failed none (some 2) with last_error := some "boom" }] 7 ∧
    ("alpha", Status.stopped, some "boom") ∈
      statusProjection
        [{ mkState "alpha" none Status.failed none (some 2) with last_error := some "boom" }] 7 :=
  refresh_coerces_handleless
    [{ mkState "alpha" none Status.failed none (some 2) with last_error := some "boom" }] 7
    { mkState "alpha" none Status.failed none (some 2) with last_error := some "boom" }
    (by decide) (by decide) (by decide) (by decide)

theorem stopModel_eq_of_find {t : Table} {n : String} {s : ModelProcessState}
    (h : findState t n = some s) (rc : Option Int) (now : Nat) :
    stopModel t n rc now = (Except.ok (), replaceState t n (stopProcess s false rc now)) := by
  simp only [stopModel, h]

/-! ### C9 — `stop_model` idempotence -/

/-- C9 (counterexample): the claim says the second of two successive
`stop_model` calls is "a no-op apart from refreshing `last_active`".  It is
not: the handle-less branch of `_stop_process` also resets `return_code` to
`none`, so the `return_code = 0` recorded by the first stop is erased by the
second. -/
theorem stopModel_counterexample :
    (findState (stopModel c9Table "alpha" (some 0) 4).2 "alpha").map
      (fun y => y.return_code) = some (some 0) ∧
    (findState (stopModel (stopModel c9Table "alpha" (some 0) 4).2 "alpha" (some 0) 5).2
        "alpha").map (fun y => y.return_code) = some none := by
  constructor
  · decide
  · decide

/-- C9 (amended): two successive `stop_model` calls on a known model leave
its state `stopped` with no handle.  The second call — on a state with no
handle — sets status `stopped`, resets `return_code` to `none`, refreshes
`last_active`, and changes nothing else (in particular it can change the
status from `failed` to `stopped` and erase a recorded exit code; it is not
a pure no-op). -/
theorem stopModel_idempotent_amended (t : Table) (n : String) (s : ModelProcessState)
    (rc1 rc2 : Option Int) (now1 now2 : Nat) (hfind : findState t n = some s) :
    (∃ y, findState (stopModel (stopModel t n rc1 now1).2 n rc2 now2).2 n = some y ∧
      y.status = Status.stopped ∧ y.process = none) ∧
    (s.process = none →
      stopModel t n rc1 now1 =
        (Except.ok (), replaceState t n
          { s with status := Status.stopped, return_code := none, last_active := some now1 })) := by
  have hname : s.name = n := findState_some_pred hfind
  have hstep1 : (stopModel t n rc1 now1).2 = replaceState t n (stopProcess s false rc1 now1) :=
    congrArg Prod.snd (stopModel_eq_of_find hfind rc1 now1)
  have hfind1 : findState (stopModel t n rc1 now1).2 n = some (stopProcess s false rc1 now1) := by
    rw [hstep1]
    exact findState_replaceState_self _ hfind ((stopProcess_name s false rc1 now1).trans hname)
  constructor
  · refine ⟨stopProcess (stopProcess s false rc1 now1) false rc2 now2, ?_, ?_, ?_⟩
    · have hstep2 : (stopModel (stopModel t n rc1 now1).2 n rc2 now2).2 =
          replaceState (stopModel t n rc1 now1).2 n
            (stopProcess (stopProcess s false rc1 now1) false rc2 now2) :=
        congrArg Prod.snd (stopModel_eq_of_find hfind1 rc2 now2)
      rw [hstep2]
      refine findState_replaceState_self _ hfind1 ?_
      rw [stopProcess_name, stopProcess_name, hname]
    · have hnone := stopProcess_process s false rc1 now1
      rw [stopProcess_noHandle _ _ _ _ hnone]
    · exact stopProcess_process _ false rc2 now2
  · intro hpn
    simp only [stopModel, hfind]
    rw [stopProcess_noHandle _ _ _ _ hpn]

/-- C9 witness: a stopped handle-less model; both conjuncts instantiated. -/
theorem stopModel_idempotent_amended_witness :
    (∃ y, findState (stopModel (stopModel [mkState "alpha" none Status.stopped none (some 2)]
        "alpha" none 4).2 "alpha" none 5).2 "alpha" = some y ∧
      y.status = Status.stopped ∧ y.process = none) ∧
    ((mkState "alpha" none Status.stopped none (some 2)).process = none →
      stopModel [mkState "alpha" none Status.stopped none (some 2)] "alpha" none 4 =
        (Except.ok (), replaceState [mkState "alpha" none Status.stopped none (some 2)] "alpha"
          { mkState "alpha" none Status.stopped none (some 2) with
            status := Status.stopped, return_code := none, last_active := some 4 })) :=
  stopModel_idempotent_amended [mkState "alpha" none Status.stopped none (some 2)] "alpha"
    (mkState "alpha" none Status.stopped none (some 2)) none none 4 5 (by decide)

/-! ### Facts about the eviction candidate -/

theorem minByAgeAux_mem (l : List ModelProcessState) :
    ∀ b : ModelProcessState, minByAgeAux b l = b ∨ minByAgeAux b l ∈ l := by
  induction l with
  | nil =>
    intro b
    exact Or.inl rfl
  | cons x xs ih =>
    intro b
    simp only [minByAgeAux]
    by_cases h : age x < age b
    · rw [if_pos h]
      rcases ih x with h1 | h1
      · refine Or.inr ?_
        rw [h1]
        exact List.mem_cons_self x xs
      · exact Or.inr (List.mem_cons_of_mem x h1)
    · rw [if_neg h]
      rcases ih b with h1 | h1
      · exact Or.inl h1
      · exact Or.inr (List.mem_cons_of_mem x h1)

theorem minByAgeAux_le (l : List ModelProcessState) :
    ∀ b : ModelProcessState, age (minByAgeAux b l) ≤ age b ∧
      ∀ y ∈ l, age (minByAgeAux b l) ≤ age y := by
  induction l with
  | nil =>
    intro b
    exact ⟨le_refl _, by simp⟩
  | cons x xs ih =>
    intro b
    simp only [minByAgeAux]
    by_cases h : age x < age b
    · rw [if_pos h]
      obtain ⟨h1, h2⟩ := ih x
      refine ⟨le_trans h1 (le_of_lt h), ?_⟩
      intro y hy
      rcases List.mem_cons.mp hy with hy | hy
      · exact hy ▸ h1
      · exact h2 y hy
    · rw [if_neg h]
      obtain ⟨h1, h2⟩ := ih b
      refine ⟨h1, ?_⟩
      intro y hy
      rcases List.mem_cons.mp hy with hy | hy
      · exact hy ▸ le_trans h1 (not_lt.mp h)
      · exact h2 y hy

theorem minByAge_spec {l : List ModelProcessState} {c : ModelProcessState}
    (h : minByAge l = some c) : c ∈ l ∧ ∀ y ∈ l, age c ≤ age y := by
  cases l with
  | nil => cases h
  | cons x xs =>
    have hc : c = minByAgeAux x xs := by
      have := h
      simp only [minByAge, Option.some.injEq] at this
      exact this.symm
    subst hc
    constructor
    · rcases minByAgeAux_mem xs x with h1 | h1
      · rw [h1]
        exact List.mem_cons_self x xs
      · exact List.mem_cons_of_mem x h1
    · intro y hy
      obtain ⟨h1, h2⟩ := minByAgeAux_le xs x
      rcases List.mem_cons.mp hy with hy | hy
      · exact hy ▸ h1
      · exact h2 y hy

theorem mem_runningPeers {t : Table} {target : ModelProcessState} {g : String}
    {c : ModelProcessState} (h : c ∈ runningPeers t target g) :
    c ∈ t ∧ c.group = some g ∧ c.is_running = true ∧ c.name ≠ target.name := by
  rw [runningPeers, List.mem_filter] at h
  obtain ⟨hmem, hpred⟩ := h
  simp only [Bool.and_eq_true, beq_iff_eq, Bool.not_eq_true', beq_eq_false_iff_ne,
    ne_eq] at hpred
  exact ⟨hmem, hpred.1.1, hpred.1.2, hpred.2⟩

theorem pick_some_facts {lookup : List HubGroup} {t : Table} {target c : ModelProcessState}
    (h : pickEvictionCandidate lookup t target = some c) :
    ∃ g, target.group = some g ∧ c ∈ runningPeers t target g ∧
      ∀ y ∈ runningPeers t target g, age c ≤ age y := by
  cases hg : target.group with
  | none => simp [pickEvictionCandidate, hg] at h
  | some g =>
    cases hl : lookupGroup lookup g with
    | none => simp [pickEvictionCandidate, hg, hl] at h
    | some grp =>
      cases hk : grp.max_loaded with
      | none => simp [pickEvictionCandidate, hg, hl, hk] at h
      | some k =>
        simp only [pickEvictionCandidate, hg, hl, hk] at h
        by_cases hlen : (runningPeers t target g).length < k
        · rw [if_pos hlen] at h
          cases h
        · rw [if_neg hlen] at h
          obtain ⟨hmem, hmin⟩ := minByAge_spec h
          exact ⟨g, rfl, hmem, hmin⟩

/-! ### C3 — eviction policy -/

/-- C3 (amended): `_pick_eviction_candidate` returns `none` when the target
has no group, the group is unknown or capless, or the running same-group
peers (excluding the target) number strictly less than `max_loaded`.
Otherwise it returns a running peer of the group, distinct from the target,
whose `start_timestamp or 0.0` is minimal among those peers.  Ties are broken
by table (dict insertion) order — Python's `min` keeps the first minimal
element — not by name. -/
theorem pickEviction_amended (lookup : List HubGroup) (t : Table)
    (target : ModelProcessState) :
    (target.group = none → pickEvictionCandidate lookup t target = none) ∧
    (∀ g, target.group = some g → lookupGroup lookup g = none →
      pickEvictionCandidate lookup t target = none) ∧
    (∀ g grp, target.group = some g → lookupGroup lookup g = some grp →
      grp.max_loaded = none → pickEvictionCandidate lookup t target = none) ∧
    (∀ g grp k, target.group = some g → lookupGroup lookup g = some grp →
      grp.max_loaded = some k → (runningPeers t target g).length < k →
      pickEvictionCandidate lookup t target = none) ∧
    (∀ c, pickEvictionCandidate lookup t target = some c →
      ∃ g, target.group = some g ∧ c ∈ t ∧ c.group = some g ∧ c.is_running = true ∧
        c.name ≠ target.name ∧ ∀ y ∈ runningPeers t target g, age c ≤ age y) := by
  refine ⟨?_, ?_, ?_, ?_, ?_⟩
  · intro hg
    simp [pickEvictionCandidate, hg]
  · intro g hg hl
    simp [pickEvictionCandidate, hg, hl]
  · intro g grp hg hl hk
    simp [pickEvictionCandidate, hg, hl, hk]
  · intro g grp k hg hl hk hlen
    simp only [pickEvictionCandidate, hg, hl, hk]
    rw [if_pos hlen]
  · intro c hc
    obtain ⟨g, hg, hmem, hmin⟩ := pick_some_facts hc
    obtain ⟨hin, hgr, hrun, hname⟩ := mem_runningPeers hmem
    exact ⟨g, hg, hin, hgr, hrun, hname, hmin⟩

/-- C3 (counterexample): with two running peers tied at `start_timestamp =
10`, the claim's tie-break-by-name would evict `alpha`; the code's `min`
keeps the first minimal element in table order and returns `zeta`. -/
theorem pickEviction_counterexample :
    (pickEvictionCandidate c3Lookup c3Table c3Beta).map (fun s => s.name) = some "zeta" ∧
    c3Alpha ∈ runningPeers c3Table c3Beta "g" ∧
    c3Zeta ∈ runningPeers c3Table c3Beta "g" ∧
    age c3Alpha = age c3Zeta ∧
    c3Alpha.name.data < c3Zeta.name.data := by
  refine ⟨by decide, by decide, by decide, by decide, by decide⟩

/-- C3 witness: the some-branch of the amended theorem at the concrete table. -/
theorem pickEviction_amended_witness :
    ∃ g, c3Beta.group = some g ∧ c3Zeta ∈ c3Table ∧ c3Zeta.group = some g ∧
      c3Zeta.is_running = true ∧ c3Zeta.name ≠ c3Beta.name ∧
      ∀ y ∈ runningPeers c3Table c3Beta g, age c3Zeta ≤ age y :=
  (pickEviction_amended c3Lookup c3Table c3Beta).2.2.2.2 c3Zeta (by decide)

/-! ### C7 — start_model and failed health checks -/

theorem healthMsg_ne_empty (nm : String) : ("Health check failed for " ++ nm) ≠ "" := by
  intro h
  have hlen : ("Health check failed for " ++ nm).length = (0 : Nat) := by
    rw [h]
    rfl
  rw [String.length_append] at hlen
  have h24 : ("Health check failed for " : String).length = 24 := by decide
  omega

/-- C7 (amended): `start_model` raises the health-check failure exactly when
`_wait_for_health` returns false — that is, when the child exits before the
deadline or is found dead at the deadline; a child that never answers
`/health` but is still alive when the deadline passes is accepted as healthy
(the deadline branch returns `is_running()`).  When the wait does return
false, `start_model` raises, and the model ends with status `failed`,
`last_error = "Health check failed for <name>"`, and no process handle (the
child has been killed). -/
theorem startModel_healthFail (lookup : List HubGroup) (t : Table) (n : String) (o : StartOracle)
    (s : ModelProcessState) (p : Proc)
    (hfind : findState t n = some s) (hrun : s.is_running = false)
    (hspawn : o.spawn = Except.ok p)
    (hhealth : waitForHealth o.probes o.aliveAtDeadline = false) :
    (startModel lookup t n o).res = Except.error ("Model " ++ n ++ " failed health checks") ∧
    ∃ y, findState (startModel lookup t n o).table n = some y ∧
      y.status = Status.failed ∧ y.process = none ∧
      y.last_error = some ("Health check failed for " ++ n) := by
  have hname : s.name = n := findState_some_pred hfind
  have hres : (startModel lookup t n o).res =
      Except.error ("Model " ++ n ++ " failed health checks") := by
    simp [startModel, hfind, hspawn, hhealth, hrun]
  have htab : (startModel lookup t n o).table =
      replaceState
        (replaceState
          (evictPhase (replaceState t n (startingState s)) (pickEvictionCandidate lookup t s)
            o.evictRc o.tEvict)
          n (installedState (startingState s) p o.tSpawn))
        n
        { stopProcess (healthFailedState (installedState (startingState s) p o.tSpawn)) true
            o.killRc o.tKill with status := Status.failed } := by
    simp [startModel, hfind, hspawn, hhealth, hrun]
  refine ⟨hres, ?_⟩
  have hfind1 : findState (replaceState t n (startingState s)) n = some (startingState s) :=
    findState_replaceState_self _ hfind hname
  have hfind2 : findState
      (evictPhase (replaceState t n (startingState s)) (pickEvictionCandidate lookup t s)
        o.evictRc o.tEvict) n = some (startingState s) := by
    cases hcand : pickEvictionCandidate lookup t s with
    | none =>
      rw [evictPhase]
      exact hfind1
    | some ev =>
      obtain ⟨g, hg, hmem, hmin⟩ := pick_some_facts hcand
      obtain ⟨hin, hgr, hrunning, hne⟩ := mem_runningPeers hmem
      rw [evictPhase]
      rw [findState_replaceState_other _ (stopProcess_name ev false o.evictRc o.tEvict)
        (by rw [hname] at hne; exact hne)]
      exact hfind1
  have hfind3 : findState
      (replaceState
        (evictPhase (replaceState t n (startingState s)) (pickEvictionCandidate lookup t s)
          o.evictRc o.tEvict)
        n (installedState (startingState s) p o.tSpawn)) n =
      some (installedState (startingState s) p o.tSpawn) :=
    findState_replaceState_self _ hfind2 hname
  have hfind4 : findState (startModel lookup t n o).table n =
      some ({ stopProcess (healthFailedState (installedState (startingState s) p o.tSpawn)) true
          o.killRc o.tKill with status := Status.failed }) := by
    rw [htab]
    refine findState_replaceState_self _ hfind3 ?_
    show (stopProcess (healthFailedState (installedState (startingState s) p o.tSpawn)) true
      o.killRc o.tKill).name = n
    rw [stopProcess_name]
    exact hname
  refine ⟨_, hfind4, rfl, ?_, ?_⟩
  · show (stopProcess (healthFailedState (installedState (startingState s) p o.tSpawn)) true
      o.killRc o.tKill).process = none
    exact stopProcess_process _ true o.killRc o.tKill
  · show (stopProcess (healthFailedState (installedState (startingState s) p o.tSpawn)) true
      o.killRc o.tKill).last_error = some ("Health check failed for " ++ n)
    refine stopProcess_last_error_of_set _ true o.killRc o.tKill _ ?_ (healthMsg_ne_empty n)
    show some ("Health check failed for " ++ s.name) = some ("Health check failed for " ++ n)
    rw [hname]

/-- C7 witness: a spawned child that exits before the first probe. -/
theorem startModel_healthFail_witness :
    (startModel [] [mkState "alpha" none Status.stopped none none] "alpha"
        { defaultOracle with
          spawn := Except.ok { pid := 5, poll := none }
          probes := [(false, none)]
          aliveAtDeadline := false }).res =
      Except.error "Model alpha failed health checks" ∧
    ∃ y, findState (startModel [] [mkState "alpha" none Status.stopped none none] "alpha"
        { defaultOracle with
          spawn := Except.ok { pid := 5, poll := none }
          probes := [(false, none)]
          aliveAtDeadline := false }).table "alpha" = some y ∧
      y.status = Status.failed ∧ y.process = none ∧
      y.last_error = some "Health check failed for alpha" :=
  startModel_healthFail [] [mkState "alpha" none Status.stopped none none] "alpha"
    { defaultOracle with
      spawn := Except.ok { pid := 5, poll := none }
      probes := [(false, none)]
      aliveAtDeadline := false }
    (mkState "alpha" none Status.stopped none none) { pid := 5, poll := none }
    (by decide) (by decide) rfl (by decide)

/-- C7 (counterexample): a child that spawns and never answers the health
probe within the deadline — every probe attempt errors — but is still alive
when the deadline passes is accepted: `start_model` returns successfully and
the model is `running`, contradicting the claim that such a run raises
`HealthCheckFailed` and ends `failed`. -/
theorem startModel_healthFail_counterexample :
    (∀ pr ∈ ({ defaultOracle with
        spawn := Except.ok { pid := 5, poll := none }
        probes := [(true, none), (true, none)]
        aliveAtDeadline := true } : StartOracle).probes, pr.2 ≠ some 200) ∧
    (startModel [] [mkState "alpha" none Status.stopped none none] "alpha"
        { defaultOracle with
          spawn := Except.ok { pid := 5, poll := none }
          probes := [(true, none), (true, none)]
          aliveAtDeadline := true }).res = Except.ok () ∧
    (findState (startModel [] [mkState "alpha" none Status.stopped none none] "alpha"
        { defaultOracle with
          spawn := Except.ok { pid := 5, poll := none }
          probes := [(true, none), (true, none)]
          aliveAtDeadline := true }).table "alpha").map (fun y => (y.status, y.last_error)) =
      some (Status.running, none) := by
  refine ⟨by decide, by rfl, by decide⟩

/-! ### Pointwise invariant lemmas -/

theorem inFlight_of_not_atRest {st : Status} (h : atRest st = false) : inFlight st = true := by
  cases st <;> simp [atRest, inFlight] at h ⊢

theorem handleStatusOk_of_iff {s : ModelProcessState} (h : handleStatusIff s = true) :
    handleStatusOk s = true := by
  unfold handleStatusIff at h
  unfold handleStatusOk
  cases hp : s.process with
  | none => simp
  | some p =>
    rw [hp] at h
    simp only [Option.isNone_some, Bool.or_eq_true, Bool.not_eq_true, Option.isSome_some]
    have hr : atRest s.status = false := by
      cases har : atRest s.status
      · rfl
      · rw [har] at h
        simp at h
    exact Or.inr (inFlight_of_not_atRest hr)

theorem inv1B_of_bicondB {t : Table} (h : bicondB t = true) : inv1B t = true := by
  rw [inv1B, List.all_eq_true]
  intro x hx
  exact handleStatusOk_of_iff ((List.all_eq_true.mp h) x hx)

theorem handleStatusIff_stopProcess (s : ModelProcessState) (kill : Bool) (rc : Option Int)
    (now : Nat) : handleStatusIff (stopProcess s kill rc now) = true := by
  have hp := stopProcess_process s kill rc now
  rcases stopProcess_status s kill rc now with h | h
  · simp [handleStatusIff, hp, h, atRest]
  · simp [handleStatusIff, hp, h, atRest]

theorem handleStatusIff_freshState (m : MLXServerConfig) :
    handleStatusIff (freshState m) = true := by
  by_cases hj : m.jit_enabled = true <;> simp [handleStatusIff, freshState, atRest, hj]

theorem handleStatusIff_refreshState (now : Nat) (s : ModelProcessState)
    (h : handleStatusIff s = true) : handleStatusIff (refreshState now s) = true := by
  cases hp : s.process with
  | none =>
    by_cases hcs : s.status ≠ Status.configured ∧ s.status ≠ Status.stopped
    · simp [refreshState, hp, hcs, handleStatusIff, atRest]
    · simp only [refreshState, hp, if_neg hcs]
      exact h
  | some p =>
    cases hpoll : p.poll with
    | none =>
      simp only [refreshState, hp, hpoll]
      exact h
    | some rc =>
      by_cases hrc : rc = 0
      · subst hrc
        simp [refreshState, hp, hpoll, handleStatusIff, atRest]
      · simp [refreshState, hp, hpoll, hrc, handleStatusIff, atRest]

theorem handleStatusIff_idleStep (lookup : List HubGroup) (now : Nat)
    (rcOf : String → Option Int) (s : ModelProcessState) (h : handleStatusIff s = true) :
    handleStatusIff (idleStep lookup now rcOf s) = true := by
  unfold idleStep
  repeat' split
  all_goals first
    | exact h
    | exact handleStatusIff_stopProcess _ _ _ _

theorem handleStatusIff_transferState (m : MLXServerConfig) (x : ModelProcessState) :
    handleStatusIff (transferState m x) = handleStatusIff x := rfl

theorem handleStatusIff_reconcileOne (old : Table) (m : MLXServerConfig)
    (h : bicondB old = true) : handleStatusIff (reconcileOne old m) = true := by
  cases hf : findState old m.name with
  | none =>
    simp only [reconcileOne, hf]
    exact handleStatusIff_freshState m
  | some x =>
    simp only [reconcileOne, hf]
    by_cases hcm : (configMatches x.config m && x.process.isSome) = true
    · rw [if_pos hcm, handleStatusIff_transferState]
      exact (List.all_eq_true.mp h) x (findState_mem hf)
    · rw [if_neg hcm]
      exact handleStatusIff_freshState m

theorem all_of_allExcept_replace {p : ModelProcessState → Bool} {t : Table} {n : String}
    {s' : ModelProcessState} (hs : p s' = true)
    (ht : ∀ y ∈ t, y.name ≠ n → p y = true) : (replaceState t n s').all p = true := by
  rw [List.all_eq_true]
  intro y hy
  rcases mem_replaceState hy with h | h
  · exact h ▸ hs
  · exact ht y h.1 h.2

theorem allExcept_replaceState {p : ModelProcessState → Bool} {t : Table} {n m : String}
    {s' : ModelProcessState} (hs : s'.name ≠ n → p s' = true)
    (ht : ∀ y ∈ t, y.name ≠ n → p y = true) :
    ∀ y ∈ replaceState t m s', y.name ≠ n → p y = true := by
  intro y hy hyn
  rcases mem_replaceState hy with h | h
  · exact h ▸ hs (h ▸ hyn)
  · exact ht y h.1 hyn

/-! ### The invariant across `start_model` (helper for C2) -/

theorem startModel_inv (lookup : List HubGroup) (t : Table) (n : String) (o : StartOracle)
    (hb : bicondB t = true) (hl : allLiveB t = true) :
    (∀ u ∈ (startModel lookup t n o).obs, inv1B u = true) ∧
    bicondB (startModel lookup t n o).table = true := by
  have hinv1 : inv1B t = true := inv1B_of_bicondB hb
  have hexc : ∀ y ∈ t, y.name ≠ n → handleStatusIff y = true :=
    fun y hy _ => (List.all_eq_true.mp hb) y hy
  cases hfind : findState t n with
  | none =>
    constructor
    · intro u hu
      simp only [startModel, hfind] at hu
      simp at hu
    · simp only [startModel, hfind]
      exact hb
  | some s =>
    have hname : s.name = n := findState_some_pred hfind
    have hmem : s ∈ t := findState_mem hfind
    by_cases hrun : s.is_running = true
    · -- already running: early return
      have heq : startModel lookup t n o =
          { res := Except.ok ()
            table := replaceState t n (earlyRunningState s o.tEarly)
            obs := [replaceState t n (earlyRunningState s o.tEarly)] } := by
        simp [startModel, hfind, hrun]
      obtain ⟨p, hp⟩ : ∃ p, s.process = some p := by
        unfold ModelProcessState.is_running at hrun
        cases hps : s.process with
        | none =>
          rw [hps] at hrun
          simp at hrun
        | some p => exact ⟨p, rfl⟩
      have hbe : handleStatusIff (earlyRunningState s o.tEarly) = true := by
        simp [handleStatusIff, earlyRunningState, hp, atRest]
      have hbt : bicondB (replaceState t n (earlyRunningState s o.tEarly)) = true :=
        all_replaceState hbe hb
      rw [heq]
      exact ⟨fun u hu => by
        simp only [List.mem_singleton] at hu
        exact hu ▸ inv1B_of_bicondB hbt, hbt⟩
    · -- not running: the handle must be absent because every handle is live
      have hvr : s.is_running = false := by
        cases hr : s.is_running
        · rfl
        · exact absurd hr hrun
      have hpn : s.process = none := by
        have hx := (List.all_eq_true.mp hl) s hmem
        cases hps : s.process with
        | none => rfl
        | some p =>
          rw [hps] at hx
          simp only [Option.isNone_some, Bool.false_or] at hx
          exact absurd hx hrun
      have hok1 : handleStatusOk (startingState s) = true := by
        simp [handleStatusOk, startingState, inFlight]
      have hexc1 : ∀ y ∈ replaceState t n (startingState s), y.name ≠ n →
          handleStatusIff y = true :=
        allExcept_replaceState (fun hne => absurd hname hne) hexc
      have hinvt1 : inv1B (replaceState t n (startingState s)) = true :=
        all_replaceState hok1 hinv1
      -- the eviction phase
      have hexc2 : ∀ y ∈ evictPhase (replaceState t n (startingState s))
          (pickEvictionCandidate lookup t s) o.evictRc o.tEvict, y.name ≠ n →
          handleStatusIff y = true := by
        cases hcand : pickEvictionCandidate lookup t s with
        | none =>
          rw [evictPhase]
          exact hexc1
        | some ev =>
          rw [evictPhase]
          exact allExcept_replaceState (fun _ => handleStatusIff_stopProcess _ _ _ _) hexc1
      have hinvt2 : inv1B (evictPhase (replaceState t n (startingState s))
          (pickEvictionCandidate lookup t s) o.evictRc o.tEvict) = true := by
        cases hcand : pickEvictionCandidate lookup t s with
        | none =>
          rw [evictPhase]
          exact hinvt1
        | some ev =>
          rw [evictPhase]
          exact all_replaceState
            (handleStatusOk_of_iff (handleStatusIff_stopProcess _ _ _ _)) hinvt1
      cases hsp : o.spawn with
      | error msg =>
        have heq : startModel lookup t n o =
            { res := Except.error ("Failed to start model " ++ n)
              table := replaceState
                (evictPhase (replaceState t n (startingState s))
                  (pickEvictionCandidate lookup t s) o.evictRc o.tEvict)
                n (spawnFailedState (startingState s) msg)
              obs := [replaceState t n (startingState s),
                evictPhase (replaceState t n (startingState s))
                  (pickEvictionCandidate lookup t s) o.evictRc o.tEvict,
                replaceState
                  (evictPhase (replaceState t n (startingState s))
                    (pickEvictionCandidate lookup t s) o.evictRc o.tEvict)
                  n (spawnFailedState (startingState s) msg)] } := by
          simp [startModel, hfind, hsp, hvr]
        have hiffF : handleStatusIff (spawnFailedState (startingState s) msg) = true := by
          simp [handleStatusIff, spawnFailedState, startingState, hpn, atRest]
        have hokF : handleStatusOk (spawnFailedState (startingState s) msg) = true :=
          handleStatusOk_of_iff hiffF
        have hbt : bicondB (replaceState
            (evictPhase (replaceState t n (startingState s))
              (pickEvictionCandidate lookup t s) o.evictRc o.tEvict)
            n (spawnFailedState (startingState s) msg)) = true :=
          all_of_allExcept_replace hiffF hexc2
        rw [heq]
        refine ⟨?_, hbt⟩
        intro u hu
        simp only [List.mem_cons, List.mem_singleton, List.not_mem_nil, or_false] at hu
        rcases hu with hu | hu | hu
        · exact hu ▸ hinvt1
        · exact hu ▸ hinvt2
        · exact hu ▸ all_replaceState hokF hinvt2
      | ok p =>
        have hok2 : handleStatusOk (installedState (startingState s) p o.tSpawn) = true := by
          simp [handleStatusOk, installedState, startingState, inFlight]
        have hexc3 : ∀ y ∈ replaceState
            (evictPhase (replaceState t n (startingState s))
              (pickEvictionCandidate lookup t s) o.evictRc o.tEvict)
            n (installedState (startingState s) p o.tSpawn), y.name ≠ n →
            handleStatusIff y = true :=
          allExcept_replaceState (fun hne => absurd hname hne) hexc2
        have hinvt3 : inv1B (replaceState
            (evictPhase (replaceState t n (startingState s))
              (pickEvictionCandidate lookup t s) o.evictRc o.tEvict)
            n (installedState (startingState s) p o.tSpawn)) = true :=
          all_replaceState hok2 hinvt2
        cases hh : waitForHealth o.probes o.aliveAtDeadline with
        | true =>
          have hiffH : handleStatusIff
              (healthyState (installedState (startingState s) p o.tSpawn) o.tHealthy) = true := by
            simp [handleStatusIff, healthyState, installedState, atRest]
          have heq : startModel lookup t n o =
              { res := Except.ok ()
                table := replaceState
                  (replaceState
                    (evictPhase (replaceState t n (startingState s))
                      (pickEvictionCandidate lookup t s) o.evictRc o.tEvict)
                    n (installedState (startingState s) p o.tSpawn))
                  n (healthyState (installedState (startingState s) p o.tSpawn) o.tHealthy)
                obs := [replaceState t n (startingState s),
                  evictPhase (replaceState t n (startingState s))
                    (pickEvictionCandidate lookup t s) o.evictRc o.tEvict,
                  replaceState
                    (evictPhase (replaceState t n (startingState s))
                      (pickEvictionCandidate lookup t s) o.evictRc o.tEvict)
                    n (installedState (startingState s) p o.tSpawn),
                  replaceState
                    (replaceState
                      (evictPhase (replaceState t n (startingState s))
                        (pickEvictionCandidate lookup t s) o.evictRc o.tEvict)
                      n (installedState (startingState s) p o.tSpawn))
                    n (healthyState (installedState (startingState s) p o.tSpawn) o.tHealthy)] } := by
            simp [startModel, hfind, hsp, hvr, hh]
          have hbt : bicondB (replaceState
              (replaceState
                (evictPhase (replaceState t n (startingState s))
                  (pickEvictionCandidate lookup t s) o.evictRc o.tEvict)
                n (installedState (startingState s) p o.tSpawn))
              n (healthyState (installedState (startingState s) p o.tSpawn) o.tHealthy)) =
              true :=
            all_of_allExcept_replace hiffH hexc3
          rw [heq]
          refine ⟨?_, hbt⟩
          intro u hu
          simp only [List.mem_cons, List.mem_singleton, List.not_mem_nil, or_false] at hu
          rcases hu with hu | hu | hu | hu
          · exact hu ▸ hinvt1
          · exact hu ▸ hinvt2
          · exact hu ▸ hinvt3
          · exact hu ▸ all_replaceState (handleStatusOk_of_iff hiffH) hinvt3
        | false =>
          have hiffK : handleStatusIff
              ({ stopProcess (healthFailedState (installedState (startingState s) p o.tSpawn))
                  true o.killRc o.tKill with status := Status.failed }) = true := by
            have hpk := stopProcess_process
              (healthFailedState (installedState (startingState s) p o.tSpawn)) true
              o.killRc o.tKill
            simp [handleStatusIff, hpk, atRest]
          have heq : startModel lookup t n o =
              { res := Except.error ("Model " ++ n ++ " failed health checks")
                table := replaceState
                  (replaceState
                    (evictPhase (replaceState t n (startingState s))
                      (pickEvictionCandidate lookup t s) o.evictRc o.tEvict)
                    n (installedState (startingState s) p o.tSpawn))
                  n
                  { stopProcess (healthFailedState (installedState (startingState s) p o.tSpawn))
                      true o.killRc o.tKill with status := Status.failed }
                obs := [replaceState t n (startingState s),
                  evictPhase (replaceState t n (startingState s))
                    (pickEvictionCandidate lookup t s) o.evictRc o.tEvict,
                  replaceState
                    (evictPhase (replaceState t n (startingState s))
                      (pickEvictionCandidate lookup t s) o.evictRc o.tEvict)
                    n (installedState (startingState s) p o.tSpawn),
                  replaceState
                    (replaceState
                      (evictPhase (replaceState t n (startingState s))
                        (pickEvictionCandidate lookup t s) o.evictRc o.tEvict)
                      n (installedState (startingState s) p o.tSpawn))
                    n
                    { stopProcess (healthFailedState
                        (installedState (startingState s) p o.tSpawn))
                        true o.killRc o.tKill with status := Status.failed }] } := by
            simp [startModel, hfind, hsp, hvr, hh]
          have hbt : bicondB (replaceState
              (replaceState
                (evictPhase (replaceState t n (startingState s))
                  (pickEvictionCandidate lookup t s) o.evictRc o.tEvict)
                n (installedState (startingState s) p o.tSpawn))
              n
              { stopProcess (healthFailedState (installedState (startingState s) p o.tSpawn))
                  true o.killRc o.tKill with status := Status.failed }) = true :=
            all_of_allExcept_replace hiffK hexc3
          rw [heq]
          refine ⟨?_, hbt⟩
          intro u hu
          simp only [List.mem_cons, List.mem_singleton, List.not_mem_nil, or_false] at hu
          rcases hu with hu | hu | hu | hu
          · exact hu ▸ hinvt1
          · exact hu ▸ hinvt2
          · exact hu ▸ hinvt3
          · exact hu ▸ all_replaceState (handleStatusOk_of_iff hiffK) hinvt3

/-! ### C2 — the handle/status invariant -/

/-- C2 (counterexample): the biconditional `process_handle = none ⇔ status ∈
{configured, stopped, failed}` holds at entry but fails at the first lock
release inside a successful `start_model`: the target is `starting` with no
handle while the child is being spawned. -/
theorem handle_status_counterexample :
    bicondB c2Table = true ∧
    ((startModel [] c2Table "alpha" c2Oracle).obs.map (fun u => bicondB u)).head? =
      some false ∧
    (findState ((startModel [] c2Table "alpha" c2Oracle).obs.headD []) "alpha").map
      (fun y => (y.process, y.status)) = some (none, Status.starting) := by
  refine ⟨by decide, by decide, by decide⟩

/-- C2 (amended): the biconditional cannot hold at the intermediate lock
releases of `start_model` — the coordinator pattern parks the target at
`starting` with no handle while spawning.  What holds is: (i) if the
biconditional holds at entry and every present handle is alive, then every
observation point of `start_model` satisfies the forward implication
`process_handle ≠ none ⇒ status ∈ {starting, running, stopping}` and the
final table satisfies the full biconditional again (with a stale dead
handle, a failed spawn would leave `failed` with a non-none handle); and
(ii) `stop_model`, the reap pass, the reload reconciliation, and the
idle-unload pass each preserve the full biconditional. -/
theorem handle_status_invariant_amended :
    (∀ lookup t n o, bicondB t = true → allLiveB t = true →
      (∀ u ∈ (startModel lookup t n o).obs, inv1B u = true) ∧
      bicondB (startModel lookup t n o).table = true) ∧
    (∀ t n rc now, bicondB t = true → bicondB (stopModel t n rc now).2 = true) ∧
    (∀ t now, bicondB t = true → bicondB (refreshProcessStates t now) = true) ∧
    (∀ old cfg, bicondB old = true → bicondB (reconcile old cfg) = true) ∧
    (∀ lookup t now rcOf, bicondB t = true →
      bicondB (enforceIdleUnload lookup t now rcOf) = true) := by
  refine ⟨fun lookup t n o hb hl => startModel_inv lookup t n o hb hl, ?_, ?_, ?_, ?_⟩
  · intro t n rc now hb
    cases hfind : findState t n with
    | none =>
      simp only [stopModel, hfind]
      exact hb
    | some s =>
      rw [congrArg Prod.snd (stopModel_eq_of_find hfind rc now)]
      exact all_replaceState (handleStatusIff_stopProcess s false rc now) hb
  · intro t now hb
    exact all_map_of (fun x _ hx => handleStatusIff_refreshState now x hx) hb
  · intro old cfg hb
    rw [reconcile, bicondB, List.all_eq_true]
    intro y hy
    rw [List.mem_map] at hy
    obtain ⟨mm, hmm, hmy⟩ := hy
    exact hmy ▸ handleStatusIff_reconcileOne old mm hb
  · intro lookup t now rcOf hb
    exact all_map_of (fun x _ hx => handleStatusIff_idleStep lookup now rcOf x hx) hb

/-- C2 witness: the start_model conjunct instantiated at the concrete table. -/
theorem handle_status_invariant_amended_witness :
    (∀ u ∈ (startModel [] c2Table "alpha" c2Oracle).obs, inv1B u = true) ∧
    bicondB (startModel [] c2Table "alpha" c2Oracle).table = true :=
  handle_status_invariant_amended.1 [] c2Table "alpha" c2Oracle (by decide) (by decide)

/-! ### Counting lemmas for group capacity -/

theorem countP_replaceState {p : ModelProcessState → Bool} {t : Table} {n : String}
    (s' : ModelProcessState) {x : ModelProcessState} (hnd : namesNodup t)
    (hx : findState t n = some x) :
    (replaceState t n s').countP p + (if p x then 1 else 0) =
      t.countP p + (if p s' then 1 else 0) := by
  induction t with
  | nil => simp [findState] at hx
  | cons y ys ih =>
    have hnd' : (y.name :: ys.map (fun z => z.name)).Nodup := by
      simpa [namesNodup, tableNames] using hnd
    by_cases hyn : y.name = n
    · have hb : (y.name == n) = true := by simpa using hyn
      have hxy : y = x := by
        have h2 := hx
        simp only [findState, List.find?_cons, hb] at h2
        exact Option.some.inj h2
      have hnotin : n ∉ tableNames ys := by
        rw [← hyn]
        exact (List.nodup_cons.mp hnd').1
      have hrepl : replaceState (y :: ys) n s' = s' :: ys := by
        simp only [replaceState, List.map_cons, if_pos hyn]
        have := replaceState_of_not_mem (t := ys) s' hnotin
        rw [show List.map (fun z => if z.name = n then s' else z) ys = ys from this]
      rw [hrepl, List.countP_cons, List.countP_cons, ← hxy]
      omega
    · have hb : (y.name == n) = false := by simpa using hyn
      have hx' : findState ys n = some x := by
        have h2 := hx
        simp only [findState, List.find?_cons, hb] at h2
        exact h2
      have hndys : namesNodup ys := by
        simpa [namesNodup, tableNames] using (List.nodup_cons.mp hnd').2
      have hih := ih hndys hx'
      have hrepl : replaceState (y :: ys) n s' = y :: replaceState ys n s' := by
        simp [replaceState, hyn]
      rw [hrepl, List.countP_cons, List.countP_cons]
      have hih2 : (replaceState ys n s').countP p + (if p x then 1 else 0) =
          ys.countP p + (if p s' then 1 else 0) := hih
      omega

theorem namesNodup_replaceState {t : Table} {n : String} (s' : ModelProcessState)
    (hs : s'.name = n) (hnd : namesNodup t) : namesNodup (replaceState t n s') := by
  have hnames : tableNames (replaceState t n s') = tableNames t := by
    unfold tableNames replaceState
    rw [List.map_map]
    refine List.map_congr_left ?_
    intro x _
    by_cases hxn : x.name = n
    · simp [Function.comp, hxn, hs]
    · simp [Function.comp, hxn]
  rw [namesNodup, hnames]
  exact hnd

theorem liveInGroup_stopProcess (g : String) (s : ModelProcessState) (kill : Bool)
    (rc : Option Int) (now : Nat) : liveInGroup g (stopProcess s kill rc now) = false := by
  unfold liveInGroup ModelProcessState.is_running
  rw [stopProcess_process]
  simp

theorem liveCount_replace_le {g : String} {t : Table} {n : String}
    {s' x : ModelProcessState} (hnd : namesNodup t) (hx : findState t n = some x)
    (hs' : liveInGroup g s' = false) :
    liveCountG g (replaceState t n s') ≤ liveCountG g t := by
  have h := countP_replaceState (p := liveInGroup g) s' hnd hx
  rw [hs'] at h
  simp only [if_false, Bool.false_eq_true] at h
  unfold liveCountG
  omega

theorem liveCount_replace_succ {g : String} {t : Table} {n : String}
    {s' x : ModelProcessState} (hnd : namesNodup t) (hx : findState t n = some x)
    (hxT : liveInGroup g x = true) (hs' : liveInGroup g s' = false) :
    liveCountG g (replaceState t n s') + 1 = liveCountG g t := by
  have h := countP_replaceState (p := liveInGroup g) s' hnd hx
  rw [hs', hxT] at h
  simp only [if_true, if_false, Bool.false_eq_true] at h
  unfold liveCountG
  omega

theorem liveCount_replace_eq_of_same {g : String} {t : Table} {n : String}
    {s' x : ModelProcessState} (hnd : namesNodup t) (hx : findState t n = some x)
    (hsame : liveInGroup g s' = liveInGroup g x) :
    liveCountG g (replaceState t n s') = liveCountG g t := by
  have h := countP_replaceState (p := liveInGroup g) s' hnd hx
  rw [hsame] at h
  unfold liveCountG
  omega

theorem liveCount_replace_le_succ {g : String} {t : Table} {n : String}
    {s' x : ModelProcessState} (hnd : namesNodup t) (hx : findState t n = some x) :
    liveCountG g (replaceState t n s') ≤ liveCountG g t + 1 := by
  have h := countP_replaceState (p := liveInGroup g) s' hnd hx
  unfold liveCountG
  rcases hpx : liveInGroup g x with _ | _ <;> rcases hps : liveInGroup g s' with _ | _ <;>
    rw [hpx, hps] at h <;> simp only [if_true, if_false, Bool.false_eq_true] at h <;> omega

/-- With a unique, non-live entry named `n` as target, the `running` filter of
the eviction policy counts exactly the live group members. -/
theorem peers_length_eq_liveCount {t : Table} {s : ModelProcessState} {g : String} {n : String}
    (hnd : namesNodup t) (hfind : findState t n = some s) (hself : liveInGroup g s = false) :
    (runningPeers t s g).length = liveCountG g t := by
  rw [runningPeers, ← List.countP_eq_length_filter]
  unfold liveCountG
  refine List.countP_congr ?_
  intro y hy
  by_cases hyn : y.name = s.name
  · have hys : y = s := by
      have h1 := findState_of_mem_nodup hnd hy
      rw [hyn, findState_some_pred hfind] at h1
      rw [hfind] at h1
      exact (Option.some.inj h1).symm
    subst hys
    rw [show (y.name == y.name) = true from by simp]
    unfold liveInGroup at hself ⊢
    rw [hself]
    simp
  · rw [show (y.name == s.name) = false from by simpa using hyn]
    unfold liveInGroup
    simp

theorem pick_none_lt {lookup : List HubGroup} {t : Table} {s : ModelProcessState}
    {g : String} {grp : HubGroup} {k : Nat} (hg2 : s.group = some g)
    (hl : lookupGroup lookup g = some grp) (hk : grp.max_loaded = some k) (hk1 : 1 ≤ k)
    (hpick : pickEvictionCandidate lookup t s = none) :
    (runningPeers t s g).length < k := by
  by_contra hge
  simp only [pickEvictionCandidate, hg2, hl, hk] at hpick
  rw [if_neg hge] at hpick
  cases hp : runningPeers t s g with
  | nil =>
    rw [hp] at hge
    simp at hge
    omega
  | cons a as =>
    rw [hp] at hpick
    simp [minByAge] at hpick

theorem pick_some_of_capacity {lookup : List HubGroup} {t : Table} {s : ModelProcessState}
    {g : String} {grp : HubGroup} {k : Nat} (hg2 : s.group = some g)
    (hl : lookupGroup lookup g = some grp) (hk : grp.max_loaded = some k)
    (hge : k ≤ (runningPeers t s g).length) (hk1 : 1 ≤ k) :
    ∃ ev, pickEvictionCandidate lookup t s = some ev := by
  simp only [pickEvictionCandidate, hg2, hl, hk]
  rw [if_neg (by omega)]
  cases hp : runningPeers t s g with
  | nil =>
    rw [hp] at hge
    simp at hge
    omega
  | cons a as => exact ⟨minByAgeAux a as, rfl⟩

/-! ### C1 — group capacity -/

/-- C1 (amended): the invariant holds for the count of *live* handles (those
whose child is alive), not for the count of merely present handles: a child
that died but has not been reaped yet keeps its handle while no longer
counting as a running peer for the eviction policy.  For every group `g`
with `max_loaded = K ≥ 1` and every table with unique names in which the
live count of `g` is at most `K`, every observation point of `start_model`
and its final table keep the live count at most `K`; and whenever the target
belongs to `g` and `g` already has at least `K` live running peers other
than the target, the eviction-candidate function does select a peer to stop
before the spawn. -/
theorem group_capacity_amended (lookup : List HubGroup) (t : Table) (n : String)
    (o : StartOracle) (g : String) (grp : HubGroup) (k : Nat)
    (hg : lookupGroup lookup g = some grp) (hk : grp.max_loaded = some k) (hk1 : 1 ≤ k)
    (hnd : namesNodup t) (hcount : liveCountG g t ≤ k) :
    (∀ u ∈ (startModel lookup t n o).obs, liveCountG g u ≤ k) ∧
    liveCountG g (startModel lookup t n o).table ≤ k ∧
    (∀ s, findState t n = some s → s.group = some g →
      k ≤ (runningPeers t s g).length →
      ∃ ev, pickEvictionCandidate lookup t s = some ev) := by
  cases hfind : findState t n with
  | none =>
    refine ⟨?_, ?_, by intro s1 hs1; simp at hs1⟩
    · intro u hu
      simp only [startModel, hfind] at hu
      simp at hu
    · simp only [startModel, hfind]
      exact hcount
  | some s =>
    have hname : s.name = n := findState_some_pred hfind
    have hthird2 : ∀ s1 : ModelProcessState, some s = some s1 → s1.group = some g →
        k ≤ (runningPeers t s1 g).length →
        ∃ ev, pickEvictionCandidate lookup t s1 = some ev := by
      intro s1 hs1 hg2 hge
      cases hs1
      exact pick_some_of_capacity hg2 hg hk hge hk1
    by_cases hrun : s.is_running = true
    · have heq : startModel lookup t n o =
          { res := Except.ok ()
            table := replaceState t n (earlyRunningState s o.tEarly)
            obs := [replaceState t n (earlyRunningState s o.tEarly)] } := by
        simp [startModel, hfind, hrun]
      have hc1 : liveCountG g (replaceState t n (earlyRunningState s o.tEarly)) =
          liveCountG g t :=
        liveCount_replace_eq_of_same hnd hfind rfl
      rw [heq]
      refine ⟨?_, by rw [hc1]; exact hcount, hthird2⟩
      intro u hu
      simp only [List.mem_singleton] at hu
      rw [hu, hc1]
      exact hcount
    · have hvr : s.is_running = false := by
        cases hr : s.is_running
        · rfl
        · exact absurd hr hrun
      have hselfF : liveInGroup g s = false := by
        unfold liveInGroup
        rw [hvr]
        simp
      have hs1F : liveInGroup g (startingState s) = false := hselfF
      have hfind1 : findState (replaceState t n (startingState s)) n =
          some (startingState s) :=
        findState_replaceState_self _ hfind hname
      have hnd1 : namesNodup (replaceState t n (startingState s)) :=
        namesNodup_replaceState _ hname hnd
      have hc1 : liveCountG g (replaceState t n (startingState s)) = liveCountG g t :=
        liveCount_replace_eq_of_same hnd hfind rfl
      -- facts about the eviction phase, by candidate case
      have hevict : namesNodup (evictPhase (replaceState t n (startingState s))
            (pickEvictionCandidate lookup t s) o.evictRc o.tEvict) ∧
          findState (evictPhase (replaceState t n (startingState s))
            (pickEvictionCandidate lookup t s) o.evictRc o.tEvict) n =
            some (startingState s) ∧
          liveCountG g (evictPhase (replaceState t n (startingState s))
            (pickEvictionCandidate lookup t s) o.evictRc o.tEvict) ≤ liveCountG g t ∧
          (s.group = some g →
            liveCountG g (evictPhase (replaceState t n (startingState s))
              (pickEvictionCandidate lookup t s) o.evictRc o.tEvict) + 1 ≤ k) := by
        cases hcand : pickEvictionCandidate lookup t s with
        | none =>
          rw [evictPhase]
          refine ⟨hnd1, hfind1, le_of_eq hc1, ?_⟩
          intro hg2
          have hlt : (runningPeers t s g).length < k :=
            pick_none_lt hg2 hg hk hk1 hcand
          rw [peers_length_eq_liveCount hnd hfind hselfF] at hlt
          rw [hc1]
          omega
        | some ev =>
          obtain ⟨g', hg', hmemP, hminP⟩ := pick_some_facts hcand
          obtain ⟨hinT, hgrEv, hrunEv, hneEv⟩ := mem_runningPeers hmemP
          have hneN : ev.name ≠ n := by
            rw [← hname]
            exact hneEv
          have hfindEv1 : findState (replaceState t n (startingState s)) ev.name =
              some ev := by
            rw [findState_replaceState_other (startingState s) hname (fun h => hneN h.symm)]
            exact findState_of_mem_nodup hnd hinT
          rw [evictPhase]
          refine ⟨namesNodup_replaceState _ (stopProcess_name ev false o.evictRc o.tEvict)
            hnd1, ?_, ?_, ?_⟩
          · rw [findState_replaceState_other _
              (stopProcess_name ev false o.evictRc o.tEvict) hneN]
            exact hfind1
          · calc liveCountG g (replaceState (replaceState t n (startingState s)) ev.name
                (stopProcess ev false o.evictRc o.tEvict)) ≤
                liveCountG g (replaceState t n (startingState s)) :=
                liveCount_replace_le hnd1 hfindEv1
                  (liveInGroup_stopProcess g ev false o.evictRc o.tEvict)
              _ = liveCountG g t := hc1
          · intro hg2
            have hgg : g' = g := by
              rw [hg2] at hg'
              exact (Option.some.inj hg').symm
            have hEvLive : liveInGroup g ev = true := by
              unfold liveInGroup
              rw [← hgg, hgrEv, hrunEv]
              simp
            have hsucc : liveCountG g (replaceState (replaceState t n (startingState s))
                ev.name (stopProcess ev false o.evictRc o.tEvict)) + 1 =
                liveCountG g (replaceState t n (startingState s)) :=
              liveCount_replace_succ hnd1 hfindEv1 hEvLive
                (liveInGroup_stopProcess g ev false o.evictRc o.tEvict)
            rw [hsucc, hc1]
            exact hcount
      obtain ⟨hnd2, hfind2, hc2le, hc2cap⟩ := hevict
      cases hsp : o.spawn with
      | error msg =>
        have heq : startModel lookup t n o =
            { res := Except.error ("Failed to start model " ++ n)
              table := replaceState
                (evictPhase (replaceState t n (startingState s))
                  (pickEvictionCandidate lookup t s) o.evictRc o.tEvict)
                n (spawnFailedState (startingState s) msg)
              obs := [replaceState t n (startingState s),
                evictPhase (replaceState t n (startingState s))
                  (pickEvictionCandidate lookup t s) o.evictRc o.tEvict,
                replaceState
                  (evictPhase (replaceState t n (startingState s))
                    (pickEvictionCandidate lookup t s) o.evictRc o.tEvict)
                  n (spawnFailedState (startingState s) msg)] } := by
          simp [startModel, hfind, hsp, hvr]
        have hcf : liveCountG g (replaceState
            (evictPhase (replaceState t n (startingState s))
              (pickEvictionCandidate lookup t s) o.evictRc o.tEvict)
            n (spawnFailedState (startingState s) msg)) ≤ liveCountG g t :=
          le_trans (liveCount_replace_le hnd2 hfind2 hs1F) hc2le
        rw [heq]
        refine ⟨?_, le_trans hcf hcount, hthird2⟩
        intro u hu
        simp only [List.mem_cons, List.mem_singleton, List.not_mem_nil, or_false] at hu
        rcases hu with hu | hu | hu
        · rw [hu, hc1]
          exact hcount
        · rw [hu]
          exact le_trans hc2le hcount
        · rw [hu]
          exact le_trans hcf hcount
      | ok p =>
        have hc3 : liveCountG g (replaceState
            (evictPhase (replaceState t n (startingState s))
              (pickEvictionCandidate lookup t s) o.evictRc o.tEvict)
            n (installedState (startingState s) p o.tSpawn)) ≤ k := by
          cases hls2 : liveInGroup g (installedState (startingState s) p o.tSpawn) with
          | false =>
            exact le_trans (le_trans (liveCount_replace_le hnd2 hfind2 hls2) hc2le) hcount
          | true =>
            have hg2 : s.group = some g := by
              unfold liveInGroup at hls2
              rw [Bool.and_eq_true] at hls2
              have := hls2.1
              simpa using this
            have hCeq := countP_replaceState (p := liveInGroup g)
              (installedState (startingState s) p o.tSpawn) hnd2 hfind2
            rw [hs1F, hls2] at hCeq
            simp only [if_true, if_false, Bool.false_eq_true] at hCeq
            have hcap := hc2cap hg2
            unfold liveCountG at hcap ⊢
            omega
        have hfind3 : findState (replaceState
            (evictPhase (replaceState t n (startingState s))
              (pickEvictionCandidate lookup t s) o.evictRc o.tEvict)
            n (installedState (startingState s) p o.tSpawn)) n =
            some (installedState (startingState s) p o.tSpawn) :=
          findState_replaceState_self _ hfind2 hname
        have hnd3 : namesNodup (replaceState
            (evictPhase (replaceState t n (startingState s))
              (pickEvictionCandidate lookup t s) o.evictRc o.tEvict)
            n (installedState (startingState s) p o.tSpawn)) :=
          namesNodup_replaceState _ hname hnd2
        cases hh : waitForHealth o.probes o.aliveAtDeadline with
        | true =>
          have heq : startModel lookup t n o =
              { res := Except.ok ()
                table := replaceState
                  (replaceState
                    (evictPhase (replaceState t n (startingState s))
                      (pickEvictionCandidate lookup t s) o.evictRc o.tEvict)
                    n (installedState (startingState s) p o.tSpawn))
                  n (healthyState (installedState (startingState s) p o.tSpawn) o.tHealthy)
                obs := [replaceState t n (startingState s),
                  evictPhase (replaceState t n (startingState s))
                    (pickEvictionCandidate lookup t s) o.evictRc o.tEvict,
                  replaceState
                    (evictPhase (replaceState t n (startingState s))
                      (pickEvictionCandidate lookup t s) o.evictRc o.tEvict)
                    n (installedState (startingState s) p o.tSpawn),
                  replaceState
                    (replaceState
                      (evictPhase (replaceState t n (startingState s))
                        (pickEvictionCandidate lookup t s) o.evictRc o.tEvict)
                      n (installedState (startingState s) p o.tSpawn))
                    n (healthyState (installedState (startingState s) p o.tSpawn)
                      o.tHealthy)] } := by
            simp [startModel, hfind, hsp, hvr, hh]
          have hc4 : liveCountG g (replaceState
              (replaceState
                (evictPhase (replaceState t n (startingState s))
                  (pickEvictionCandidate lookup t s) o.evictRc o.tEvict)
                n (installedState (startingState s) p o.tSpawn))
              n (healthyState (installedState (startingState s) p o.tSpawn) o.tHealthy)) =
              liveCountG g (replaceState
                (evictPhase (replaceState t n (startingState s))
                  (pickEvictionCandidate lookup t s) o.evictRc o.tEvict)
                n (installedState (startingState s) p o.tSpawn)) :=
            liveCount_replace_eq_of_same hnd3 hfind3 rfl
          rw [heq]
          refine ⟨?_, by rw [hc4]; exact hc3, hthird2⟩
          intro u hu
          simp only [List.mem_cons, List.mem_singleton, List.not_mem_nil, or_false] at hu
          rcases hu with hu | hu | hu | hu
          · rw [hu, hc1]
            exact hcount
          · rw [hu]
            exact le_trans hc2le hcount
          · rw [hu]
            exact hc3
          · rw [hu, hc4]
            exact hc3
        | false =>
          have hs4F : liveInGroup g
              ({ stopProcess (healthFailedState (installedState (startingState s) p o.tSpawn))
                  true o.killRc o.tKill with status := Status.failed }) = false := by
            have hs4p : ({ stopProcess (healthFailedState
                (installedState (startingState s) p o.tSpawn))
                true o.killRc o.tKill with status := Status.failed } :
                ModelProcessState).process = none :=
              stopProcess_process _ true o.killRc o.tKill
            unfold liveInGroup ModelProcessState.is_running
            rw [hs4p]
            simp
          have heq : startModel lookup t n o =
              { res := Except.error ("Model " ++ n ++ " failed health checks")
                table := replaceState
                  (replaceState
                    (evictPhase (replaceState t n (startingState s))
                      (pickEvictionCandidate lookup t s) o.evictRc o.tEvict)
                    n (installedState (startingState s) p o.tSpawn))
                  n
                  { stopProcess (healthFailedState (installedState (startingState s) p
                      o.tSpawn)) true o.killRc o.tKill with status := Status.failed }
                obs := [replaceState t n (startingState s),
                  evictPhase (replaceState t n (startingState s))
                    (pickEvictionCandidate lookup t s) o.evictRc o.tEvict,
                  replaceState
                    (evictPhase (replaceState t n (startingState s))
                      (pickEvictionCandidate lookup t s) o.evictRc o.tEvict)
                    n (installedState (startingState s) p o.tSpawn),
                  replaceState
                    (replaceState
                      (evictPhase (replaceState t n (startingState s))
                        (pickEvictionCandidate lookup t s) o.evictRc o.tEvict)
                      n (installedState (startingState s) p o.tSpawn))
                    n
                    { stopProcess (healthFailedState
                        (installedState (startingState s) p o.tSpawn))
                        true o.killRc o.tKill with status := Status.failed }] } := by
            simp [startModel, hfind, hsp, hvr, hh]
          have hc4 : liveCountG g (replaceState
              (replaceState
                (evictPhase (replaceState t n (startingState s))
                  (pickEvictionCandidate lookup t s) o.evictRc o.tEvict)
                n (installedState (startingState s) p o.tSpawn))
              n
              { stopProcess (healthFailedState (installedState (startingState s) p o.tSpawn))
                  true o.killRc o.tKill with status := Status.failed }) ≤
              liveCountG g (replaceState
                (evictPhase (replaceState t n (startingState s))
                  (pickEvictionCandidate lookup t s) o.evictRc o.tEvict)
                n (installedState (startingState s) p o.tSpawn)) :=
            liveCount_replace_le hnd3 hfind3 hs4F
          rw [heq]
          refine ⟨?_, le_trans hc4 hc3, hthird2⟩
          intro u hu
          simp only [List.mem_cons, List.mem_singleton, List.not_mem_nil, or_false] at hu
          rcases hu with hu | hu | hu | hu
          · rw [hu, hc1]
            exact hcount
          · rw [hu]
            exact le_trans hc2le hcount
          · rw [hu]
            exact hc3
          · rw [hu]
            exact le_trans hc4 hc3

/-- C1 (counterexample): the claim counts states with `process_handle ≠
none`.  With `max_loaded = 1` and `alpha` holding a dead, not-yet-reaped
handle (its child exited after the last lock release, so the entry state is
reachable), `start_model("beta")` sees zero *running* peers, evicts nobody,
and spawns: the final table holds two non-none handles in group `g`,
exceeding K = 1.  The live-handle count of the amended claim stays at 1. -/
theorem group_capacity_counterexample :
    handleCountG "g" c1Table ≤ 1 ∧
    handleCountG "g" (startModel c1Lookup c1Table "beta" c1Oracle).table = 2 := by
  refine ⟨by decide, by decide⟩

/-- C1 witness: starting `beta` with the group at capacity evicts `alpha`
and every observation point keeps the live count within K = 1. -/
theorem group_capacity_amended_witness :
    (∀ u ∈ (startModel c1Lookup c1TableLive "beta" c1Oracle).obs,
      liveCountG "g" u ≤ 1) ∧
    liveCountG "g" (startModel c1Lookup c1TableLive "beta" c1Oracle).table ≤ 1 ∧
    (∀ s, findState c1TableLive "beta" = some s → s.group = some "g" →
      1 ≤ (runningPeers c1TableLive s "g").length →
      ∃ ev, pickEvictionCandidate c1Lookup c1TableLive s = some ev) :=
  group_capacity_amended c1Lookup c1TableLive "beta" c1Oracle "g"
    { name := "g", max_loaded := some 1, idle_unload_trigger_min := none } 1
    (by decide) (by decide) (by decide) (by unfold namesNodup tableNames; decide) (by decide)

/-! ### C6 — reload preserves compatible running processes -/

theorem reconcileOne_name (old : Table) (m : MLXServerConfig) :
    (reconcileOne old m).name = m.name := by
  cases hf : findState old m.name with
  | none =>
    simp only [reconcileOne, hf]
    rfl
  | some x =>
    simp only [reconcileOne, hf]
    by_cases hcm : (configMatches x.config m && x.process.isSome) = true
    · rw [if_pos hcm]
      rfl
    · rw [if_neg hcm]
      rfl

theorem findState_reconcile (old : Table) (cfgModels : List MLXServerConfig)
    (m : MLXServerConfig) (hnd : (cfgModels.map (fun c => c.name)).Nodup)
    (hm : m ∈ cfgModels) :
    findState (cfgModels.map (reconcileOne old)) m.name = some (reconcileOne old m) := by
  induction cfgModels with
  | nil => simp at hm
  | cons c cs ih =>
    rw [List.map_cons] at hnd
    rcases List.mem_cons.mp hm with hmc | hmc
    · subst hmc
      have hb : ((reconcileOne old m).name == m.name) = true := by
        simp [reconcileOne_name]
      simp only [List.map_cons, findState, List.find?_cons, hb]
    · have hcn : c.name ≠ m.name := by
        intro hEq
        have h1 := (List.nodup_cons.mp hnd).1
        rw [hEq] at h1
        exact h1 (List.mem_map_of_mem (fun z => z.name) hmc)
      have hb : ((reconcileOne old c).name == m.name) = false := by
        simp [reconcileOne_name, hcn]
      simp only [List.map_cons, findState, List.find?_cons, hb]
      have hih := ih (List.nodup_cons.mp hnd).2 hmc
      simpa only [findState] using hih

/-- C6 (amended): (i) for every model whose new spec is process-compatible
with its existing entry and whose existing entry has a handle (the code tests
handle presence, liveness is not required), the reconciliation installs a
fresh state carrying the existing handle, status, `start_timestamp`,
`last_active` and `last_error` unchanged; hence (ii) a reload with an
unchanged config file transfers every model's handle and `start_timestamp`
unchanged into the table installed under the lock.  The subsequent
`start_initial_models` pass can nevertheless evict a running model when it
boots a stopped non-JIT member of a group already at capacity, so the claim
that the full `reload_config` keeps every running handle does not hold. -/
theorem reload_transfer (old : Table) (cfg : HubConfigData)
    (hnd : (cfg.models.map (fun c => c.name)).Nodup) :
    (∀ m ∈ cfg.models, ∀ x, findState old m.name = some x →
      configMatches x.config m = true → x.process.isSome = true →
      findState (reconcile old cfg) m.name = some (transferState m x) ∧
      (transferState m x).process = x.process ∧
      (transferState m x).status = x.status ∧
      (transferState m x).start_timestamp = x.start_timestamp ∧
      (transferState m x).last_active = x.last_active ∧
      (transferState m x).last_error = x.last_error) ∧
    (cfg.models = old.map (fun st => st.config) → namesNodup old →
      (∀ u ∈ old, u.config.name = u.name) →
      ∀ s ∈ old, s.process.isSome = true →
        findState (reconcile old cfg) s.name = some (transferState s.config s) ∧
        (transferState s.config s).process = s.process ∧
        (transferState s.config s).start_timestamp = s.start_timestamp) := by
  have hA : ∀ m ∈ cfg.models, ∀ x, findState old m.name = some x →
      configMatches x.config m = true → x.process.isSome = true →
      findState (reconcile old cfg) m.name = some (transferState m x) := by
    intro m hm x hfx hcm hps
    rw [reconcile, findState_reconcile old cfg.models m hnd hm]
    congr 1
    simp only [reconcileOne, hfx]
    rw [if_pos (by rw [hcm, hps]; rfl)]
  constructor
  · intro m hm x hfx hcm hps
    exact ⟨hA m hm x hfx hcm hps, rfl, rfl, rfl, rfl, rfl⟩
  · intro hcfg hndold hnames s hs hps
    have hmn : s.config.name = s.name := hnames s hs
    have hm : s.config ∈ cfg.models := by
      rw [hcfg]
      exact List.mem_map_of_mem (fun st => st.config) hs
    have hfx : findState old s.config.name = some s := by
      rw [hmn]
      exact findState_of_mem_nodup hndold hs
    have h1 := hA s.config hm s hfx (configMatches_refl s.config) hps
    rw [hmn] at h1
    exact ⟨h1, rfl, rfl⟩

/-- C6 (counterexample): a `reload_config` with an unchanged config file does
not keep every running model's handle.  `alpha` (running, live) survives the
reconciliation with its handle, but `start_initial_models` then boots the
stopped non-JIT `beta`, whose group `g` is at capacity 1 — evicting `alpha`.
After the reload `alpha` is `stopped` with no handle. -/
theorem reload_transfer_counterexample :
    r6Cfg.models = r6Old.map (fun st => st.config) ∧
    (findState r6Old "alpha").map (fun y => y.process.isSome) = some true ∧
    (findState (reloadConfig r6Rt (Except.ok r6Cfg) r6Oracles).2.model_state "alpha").map
      (fun y => (y.process, y.status)) = some (none, Status.stopped) := by
  refine ⟨by decide, by decide, by decide⟩

/-- C6 witness: the amended theorem instantiated at the C6 scenario. -/
theorem reload_transfer_witness :
    (∀ m ∈ r6Cfg.models, ∀ x, findState r6Old m.name = some x →
      configMatches x.config m = true → x.process.isSome = true →
      findState (reconcile r6Old r6Cfg) m.name = some (transferState m x) ∧
      (transferState m x).process = x.process ∧
      (transferState m x).status = x.status ∧
      (transferState m x).start_timestamp = x.start_timestamp ∧
      (transferState m x).last_active = x.last_active ∧
      (transferState m x).last_error = x.last_error) ∧
    (r6Cfg.models = r6Old.map (fun st => st.config) → namesNodup r6Old →
      (∀ u ∈ r6Old, u.config.name = u.name) →
      ∀ s ∈ r6Old, s.process.isSome = true →
        findState (reconcile r6Old r6Cfg) s.name = some (transferState s.config s) ∧
        (transferState s.config s).process = s.process ∧
        (transferState s.config s).start_timestamp = s.start_timestamp) :=
  reload_transfer r6Old r6Cfg (by decide)

end MlxHub
